import Mathlib

/-!
# Verification of the ldc-store order/inventory/payment core

Shallow embedding of the TypeScript sources:

* `src/lib/payment/ldc.ts` — signing (`generateSign`, `verifySign`);
* `src/app/api/payment/notify/route.ts` — webhook pipeline (`toCents`, `GET`);
* `src/lib/actions/orders.ts` — order/card transactions (`createOrder`,
  `handlePaymentSuccess`, `releaseExpiredOrders`, `adminCompleteOrder`,
  `approveRefund`, `getUserOrders`, `getOrderByNo`).

The database is modelled as an explicit state record; every `db.transaction`
block becomes one atomic Lean function on that state (justified by the
row-level `FOR UPDATE` locks and conditional `UPDATE ... WHERE` guards the
code uses).  External library code (Node `crypto` MD5, ICU `localeCompare`)
is modelled bit-exactly where needed.
-/

namespace LdcStore

/-! ## MD5 (model of Node `crypto.createHash("md5")`)

A byte-level implementation of RFC 1321 MD5 over `Nat`, with all 32-bit
arithmetic reduced modulo `2 ^ 32`. -/

def M32 : Nat := 4294967296

def add32 (a b : Nat) : Nat := (a + b) % M32

/-- Bitwise complement of a 32-bit value. -/
def not32 (a : Nat) : Nat := 4294967295 - a

/-- Left-rotation of a 32-bit value. -/
def rotl32 (x s : Nat) : Nat := ((x <<< s) % M32) ||| (x >>> (32 - s))

def mdF (b c d : Nat) : Nat := (b &&& c) ||| (not32 b &&& d)
def mdG (b c d : Nat) : Nat := (b &&& d) ||| (c &&& not32 d)
def mdH (b c d : Nat) : Nat := (b ^^^ c) ^^^ d
def mdI (b c d : Nat) : Nat := c ^^^ (b ||| not32 d)

/-- The 64 MD5 sine-derived constants `⌊2³² · |sin (i + 1)|⌋`. -/
def mdK : List Nat :=
  [0xd76aa478, 0xe8c7b756, 0x242070db, 0xc1bdceee,
   0xf57c0faf, 0x4787c62a, 0xa8304613, 0xfd469501,
   0x698098d8, 0x8b44f7af, 0xffff5bb1, 0x895cd7be,
   0x6b901122, 0xfd987193, 0xa679438e, 0x49b40821,
   0xf61e2562, 0xc040b340, 0x265e5a51, 0xe9b6c7aa,
   0xd62f105d, 0x02441453, 0xd8a1e681, 0xe7d3fbc8,
   0x21e1cde6, 0xc33707d6, 0xf4d50d87, 0x455a14ed,
   0xa9e3e905, 0xfcefa3f8, 0x676f02d9, 0x8d2a4c8a,
   0xfffa3942, 0x8771f681, 0x6d9d6122, 0xfde5380c,
   0xa4beea44, 0x4bdecfa9, 0xf6bb4b60, 0xbebfbc70,
   0x289b7ec6, 0xeaa127fa, 0xd4ef3085, 0x04881d05,
   0xd9d4d039, 0xe6db99e5, 0x1fa27cf8, 0xc4ac5665,
   0xf4292244, 0x432aff97, 0xab9423a7, 0xfc93a039,
   0x655b59c3, 0x8f0ccc92, 0xffeff47d, 0x85845dd1,
   0x6fa87e4f, 0xfe2ce6e0, 0xa3014314, 0x4e0811a1,
   0xf7537e82, 0xbd3af235, 0x2ad7d2bb, 0xeb86d391]

/-- The 64 per-round left-rotation amounts. -/
def mdS : List Nat :=
  [7, 12, 17, 22, 7, 12, 17, 22, 7, 12, 17, 22, 7, 12, 17, 22,
   5, 9, 14, 20, 5, 9, 14, 20, 5, 9, 14, 20, 5, 9, 14, 20,
   4, 11, 16, 23, 4, 11, 16, 23, 4, 11, 16, 23, 4, 11, 16, 23,
   6, 10, 15, 21, 6, 10, 15, 21, 6, 10, 15, 21, 6, 10, 15, 21]

/-- One MD5 round on the `(a, b, c, d)` state, `m` giving the message words. -/
def md5Round (m : Nat → Nat) (st : Nat × Nat × Nat × Nat) (i : Nat) :
    Nat × Nat × Nat × Nat :=
  let (a, b, c, d) := st
  let f :=
    if i < 16 then mdF b c d
    else if i < 32 then mdG b c d
    else if i < 48 then mdH b c d
    else mdI b c d
  let g :=
    if i < 16 then i
    else if i < 32 then (5 * i + 1) % 16
    else if i < 48 then (3 * i + 5) % 16
    else (7 * i) % 16
  (d, add32 b (rotl32 (add32 (add32 (add32 a f) (mdK.getD i 0)) (m g)) (mdS.getD i 0)), b, c)

/-- `leBytes k v` is the `k`-byte little-endian encoding of `v`. -/
def leBytes : Nat → Nat → List Nat
  | 0, _ => []
  | k + 1, v => v % 256 :: leBytes k (v / 256)

/-- Split a byte list into 64-byte blocks (structural recursion on a fuel
bound so that the definition reduces inside the kernel). -/
def chunksAux : Nat → List Nat → List (List Nat)
  | 0, _ => []
  | _, [] => []
  | fuel + 1, l => l.take 64 :: chunksAux fuel (l.drop 64)

/-- Split a byte list into 64-byte blocks. -/
def chunks64 (l : List Nat) : List (List Nat) := chunksAux l.length l

/-- Little-endian 32-bit word `j` of a 64-byte block. -/
def blockWord (block : List Nat) (j : Nat) : Nat :=
  block.getD (4 * j) 0 + 256 * block.getD (4 * j + 1) 0 +
    65536 * block.getD (4 * j + 2) 0 + 16777216 * block.getD (4 * j + 3) 0

/-- Process one 64-byte block into the running state. -/
def md5Block (st : Nat × Nat × Nat × Nat) (block : List Nat) :
    Nat × Nat × Nat × Nat :=
  let (a0, b0, c0, d0) := st
  let (a, b, c, d) := (List.range 64).foldl (md5Round (blockWord block)) (a0, b0, c0, d0)
  (add32 a0 a, add32 b0 b, add32 c0 c, add32 d0 d)

/-- MD5 padding: `0x80`, zeros to 56 mod 64, then the 64-bit LE bit length. -/
def md5Pad (msg : List Nat) : List Nat :=
  let len := msg.length
  let zeros := (64 + 56 - (len + 1) % 64) % 64
  msg ++ 128 :: List.replicate zeros 0 ++ leBytes 8 (len * 8)

/-- MD5 digest of a byte list, as the 16 digest bytes. -/
def md5Bytes (msg : List Nat) : List Nat :=
  let (a, b, c, d) :=
    (chunks64 (md5Pad msg)).foldl md5Block
      (0x67452301, 0xefcdab89, 0x98badcfe, 0x10325476)
  leBytes 4 a ++ leBytes 4 b ++ leBytes 4 c ++ leBytes 4 d

/-- Lowercase hexadecimal digit. -/
def hexDigit (n : Nat) : Char :=
  if n < 10 then Char.ofNat (48 + n) else Char.ofNat (87 + n)

/-- UTF-8 encoding of one character (as Node's `hash.update(string)` uses). -/
def utf8Encode (c : Char) : List Nat :=
  let n := c.toNat
  if n < 128 then [n]
  else if n < 2048 then [192 + n / 64, 128 + n % 64]
  else if n < 65536 then [224 + n / 4096, 128 + n / 64 % 64, 128 + n % 64]
  else [240 + n / 262144, 128 + n / 4096 % 64, 128 + n / 64 % 64, 128 + n % 64]

/-- UTF-8 bytes of a string. -/
def strBytes (s : String) : List Nat := s.data.flatMap utf8Encode

/-- `crypto.createHash("md5").update(s).digest("hex")`: lowercase hex MD5. -/
def md5Hex (s : String) : String :=
  String.mk ((md5Bytes (strBytes s)).flatMap fun b => [hexDigit (b / 16), hexDigit (b % 16)])

/-! ## `String.prototype.localeCompare`

Model of Node's default-locale `localeCompare` (ICU root collation),
restricted to ASCII strings: a primary pass compares case-folded characters
with punctuation ordered before digits before letters, and a tie is broken
by a case (tertiary) pass in which lowercase sorts before uppercase.  Note
this is *not* byte/ASCII order: `"a".localeCompare("B") < 0` although
`0x42 < 0x61`. -/

/-- Primary (case-insensitive) collation weight of an ASCII character. -/
def primaryWeight (c : Char) : Nat :=
  if c.isLower then 1000 + c.toNat
  else if c.isUpper then 1000 + c.toNat + 32
  else if c.isDigit then 500 + c.toNat
  else c.toNat

/-- Tertiary (case) collation weight: lowercase before uppercase. -/
def caseWeight (c : Char) : Nat := if c.isUpper then 1 else 0

/-- Lexicographic comparison of weight sequences. -/
def lexCmpNat : List Nat → List Nat → Ordering
  | [], [] => Ordering.eq
  | [], _ :: _ => Ordering.lt
  | _ :: _, [] => Ordering.gt
  | a :: as, b :: bs =>
    if a < b then Ordering.lt else if b < a then Ordering.gt else lexCmpNat as bs

/-- `a.localeCompare(b)` (sign of), as an `Ordering`. -/
def localeCompare (a b : String) : Ordering :=
  match lexCmpNat (a.data.map primaryWeight) (b.data.map primaryWeight) with
  | Ordering.eq => lexCmpNat (a.data.map caseWeight) (b.data.map caseWeight)
  | o => o

/-- Stable insertion of a key-value pair into a list sorted by
`localeCompare` on keys (models `Array.prototype.sort` with the comparator
`([a], [b]) => a.localeCompare(b)`). -/
def insertPair (x : String × String) : List (String × String) → List (String × String)
  | [] => [x]
  | y :: ys =>
    if localeCompare x.1 y.1 ≠ Ordering.gt then x :: y :: ys else y :: insertPair x ys

/-- Stable sort of key-value pairs by `localeCompare` on keys. -/
def sortPairs (l : List (String × String)) : List (String × String) :=
  l.foldr insertPair []

/-! ## `src/lib/payment/ldc.ts` — signing -/

/-- `Array.prototype.join("&")`. -/
def joinAmp : List String → String
  | [] => ""
  | [x] => x
  | x :: xs => x ++ "&" ++ joinAmp xs

/-- The filter in `generateSign`: drop `undefined`/empty values and the
`sign`/`sign_type` keys.  A `Record<string, string | undefined>` is modelled
as an association list with `Option String` values. -/
def sigEntries (params : List (String × Option String)) : List (String × String) :=
  params.filterMap fun kv =>
    match kv.2 with
    | some v =>
      if v ≠ "" && kv.1 != "sign" && kv.1 != "sign_type" then some (kv.1, v) else none
    | none => none

/-- The string `generateSign` hashes: filtered entries sorted by
`localeCompare`, joined as `key=value` with `&`, secret appended. -/
def generateSignString (params : List (String × Option String)) (secret : String) : String :=
  let sorted := sortPairs (sigEntries params)
  joinAmp (sorted.map fun kv => kv.1 ++ "=" ++ kv.2) ++ secret

/-- `generateSign(params, secret)` from `src/lib/payment/ldc.ts`. -/
def generateSign (params : List (String × Option String)) (secret : String) : String :=
  md5Hex (generateSignString params secret)

/-- Inbound notification parameters (`NotifyParams` in `ldc.ts`). -/
structure NotifyParams where
  pid : String
  tradeNo : String
  outTradeNo : String
  payType : String
  name : String
  money : String
  tradeStatus : String
  signType : String
  sign : String
deriving DecidableEq, Repr

/-- The `rest` object of `verifySign` (`NotifyParams` minus `sign` and
`sign_type`), as entries in field order. -/
def notifyRest (p : NotifyParams) : List (String × String) :=
  [("pid", p.pid), ("trade_no", p.tradeNo), ("out_trade_no", p.outTradeNo),
   ("type", p.payType), ("name", p.name), ("money", p.money),
   ("trade_status", p.tradeStatus)]

/-- The string `verifySign` recomputes the signature over. -/
def verifySignString (p : NotifyParams) (secret : String) : String :=
  let sorted := sortPairs ((notifyRest p).filter fun kv => kv.2 ≠ "")
  joinAmp (sorted.map fun kv => kv.1 ++ "=" ++ kv.2) ++ secret

/-- `verifySign(params, secret)` from `src/lib/payment/ldc.ts`. -/
def verifySign (p : NotifyParams) (secret : String) : Bool :=
  p.sign == md5Hex (verifySignString p secret)

/-! The spec's description of the signing algorithm ("sort remaining keys by
ascending byte/ASCII order"), used to compare against `generateSignString`.
Lean's `String` order compares Unicode code points lexicographically, which
on UTF-8 encodings coincides with byte order. -/

/-- Byte/ASCII lexicographic comparison (code-point order, which equals
UTF-8 byte order). -/
def asciiLe (a b : String) : Bool :=
  lexCmpNat (a.data.map Char.toNat) (b.data.map Char.toNat) ≠ Ordering.gt

/-- Insertion into a list sorted by ascending byte/ASCII key order. -/
def insertPairAscii (x : String × String) : List (String × String) → List (String × String)
  | [] => [x]
  | y :: ys => if asciiLe x.1 y.1 then x :: y :: ys else y :: insertPairAscii x ys

/-- Sort of key-value pairs by ascending byte/ASCII key order. -/
def sortPairsAscii (l : List (String × String)) : List (String × String) :=
  l.foldr insertPairAscii []

/-- The signing preimage as the spec words it (byte/ASCII key order). -/
def specSignString (params : List (String × Option String)) (secret : String) : String :=
  let sorted := sortPairsAscii (sigEntries params)
  joinAmp (sorted.map fun kv => kv.1 ++ "=" ++ kv.2) ++ secret

/-- The signature as the spec words it. -/
def specSign (params : List (String × Option String)) (secret : String) : String :=
  md5Hex (specSignString params secret)

/-! ## `src/app/api/payment/notify/route.ts` — `toCents`

`toCents` does `Math.round(Number(value) * 100)` (null when not finite).
`Number(value)` is modelled on plain decimal notation — optional sign,
digits, optional fractional part, surrounding whitespace, the empty string
coercing to `0` — which covers every monetary string the system produces;
the rounding is done in exact rational arithmetic
(`Math.round(x) = ⌊x + 1/2⌋`), which agrees with the double-precision
computation on all amounts with at most two fractional digits in the
monetary range. -/

/-- A JavaScript whitespace character (the ASCII ones). -/
def wsChar (c : Char) : Bool :=
  c = ' ' || c = '\t' || c = '\n' || c = '\r' || c.toNat = 11 || c.toNat = 12

/-- String trimming as `Number()` performs it. -/
def jsTrim (s : String) : String :=
  String.mk (((s.data.dropWhile wsChar).reverse.dropWhile wsChar).reverse)

/-- Decimal digits to a number. -/
def digitsToNat (l : List Char) : Nat :=
  l.foldl (fun acc c => 10 * acc + (c.toNat - 48)) 0

/-- Parse an unsigned decimal literal `digits[.digits]` / `.digits` /
`digits.`; result `(n, k)` denotes the value `n / 10 ^ k`. -/
def parseUnsigned (l : List Char) : Option (Nat × Nat) :=
  let intPart := l.takeWhile Char.isDigit
  let rest := l.drop intPart.length
  match rest with
  | [] => if intPart.isEmpty then none else some (digitsToNat intPart, 0)
  | '.' :: frac =>
    if frac.all Char.isDigit && !(intPart.isEmpty && frac.isEmpty) then
      some (digitsToNat (intPart ++ frac), frac.length)
    else none
  | _ => none

/-- `Number(s)` on the modelled domain; result `(n, k)` denotes `n / 10 ^ k`. -/
def jsNumber (s : String) : Option (Int × Nat) :=
  let t := jsTrim s
  if t = "" then some (0, 0)
  else
    match t.data with
    | '+' :: rest => (parseUnsigned rest).map fun nk => ((nk.1 : Int), nk.2)
    | '-' :: rest => (parseUnsigned rest).map fun nk => (-(nk.1 : Int), nk.2)
    | l => (parseUnsigned l).map fun nk => ((nk.1 : Int), nk.2)

/-- `toCents` from `route.ts`: `Math.round(Number(value) * 100)`, `null` on
parse failure. -/
def toCents (value : String) : Option Int :=
  (jsNumber value).map fun nk =>
    let d : Int := 10 ^ nk.2
    Int.fdiv (200 * nk.1 + d) (2 * d)

/-! ## Data model (`src/lib/db/schema.ts`)

Rows of the `cards`, `orders` and `products` tables, with uuids as `Nat`
and timestamps as `Nat` milliseconds.  Only the columns the verified
operations read or write are carried. -/

inductive CardStatus
  | available
  | locked
  | sold
deriving DecidableEq, Repr

inductive OrderStatus
  | pending
  | paid
  | completed
  | expired
  | refundPending
  | refundRejected
  | refunded
deriving DecidableEq, Repr

structure Card where
  id : Nat
  productId : Nat
  content : String
  status : CardStatus
  orderId : Option Nat
  lockedAt : Option Nat
  soldAt : Option Nat
deriving DecidableEq, Repr

structure Order where
  id : Nat
  orderNo : String
  productId : Option Nat
  productName : String
  quantity : Nat
  totalAmount : String
  paymentMethod : String
  status : OrderStatus
  tradeNo : Option String
  userId : Option String
  expiredAt : Option Nat
  paidAt : Option Nat
  updatedAt : Nat
  adminRemark : Option String
  refundReason : Option String
  refundRequestedAt : Option Nat
  refundedAt : Option Nat
deriving DecidableEq, Repr

structure Product where
  id : Nat
  name : String
  slug : String
  priceCents : Nat
  minQuantity : Nat
  maxQuantity : Nat
  isActive : Bool
  salesCount : Nat
  updatedAt : Nat
deriving DecidableEq, Repr

/-- The relational store.  Every `db.transaction` block becomes one atomic
function `State → Result × State`. -/
structure State where
  products : List Product
  orders : List Order
  cards : List Card
deriving DecidableEq, Repr

/-- `"0.00"`-style rendering of a cent amount (`Number.prototype.toFixed(2)`
on exact cent values). -/
def centsToAmount (cents : Nat) : String :=
  toString (cents / 100) ++ "." ++
    (if cents % 100 < 10 then "0" else "") ++ toString (cents % 100)

/-! ## `src/lib/actions/orders.ts` — operations -/

/-- Outcome of `createOrder` (the fields of `CreateOrderResult` the claims
need, with the insufficient-stock message carrying the available count as in
`` `库存不足，当前仅剩 ${availableCards.length} 件` ``). -/
inductive CreateOrderResult
  | ok (orderNo : String)
  | productNotFound
  | quantityOutOfRange
  | insufficientStock (available : Nat)
deriving DecidableEq, Repr

/-- The `db.transaction` block of `createOrder` (lines 95–147): select up to
`quantity` available cards of the product with `FOR UPDATE`; abort with the
actual available count when fewer; otherwise insert the pending order row
and flip exactly the selected cards to `locked`. -/
def createOrderTx (productId quantity : Nat) (pm orderNo : String)
    (newOrderId : Nat) (userId : Option String) (priceCents now expiredAt : Nat)
    (productName : String) (s : State) : CreateOrderResult × State :=
  let availableCards :=
    ((s.cards.filter fun c => c.productId = productId ∧ c.status = CardStatus.available).take
      quantity)
  if availableCards.length < quantity then
    (CreateOrderResult.insufficientStock availableCards.length, s)
  else
    let cardIds := availableCards.map Card.id
    let newOrder : Order :=
      { id := newOrderId, orderNo := orderNo, productId := some productId,
        productName := productName, quantity := quantity,
        totalAmount := centsToAmount (priceCents * quantity),
        paymentMethod := pm, status := OrderStatus.pending, tradeNo := none,
        userId := userId, expiredAt := some expiredAt, paidAt := none,
        updatedAt := now, adminRemark := none, refundReason := none,
        refundRequestedAt := none, refundedAt := none }
    let s1 : State := { s with orders := s.orders ++ [newOrder] }
    let s2 : State :=
      { s1 with
        cards := s1.cards.map fun c =>
          if c.productId = productId ∧ c.status = CardStatus.available ∧ c.id ∈ cardIds then
            { c with status := CardStatus.locked, orderId := some newOrderId,
                     lockedAt := some now }
          else c }
    (CreateOrderResult.ok orderNo, s2)

/-- The sweep predicate `status = 'pending' AND expiredAt < NOW()` (an SQL
`NULL` comparison is falsy). -/
def orderExpiredNow (now : Nat) (o : Order) : Bool :=
  o.status = OrderStatus.pending &&
    match o.expiredAt with
    | some t => t < now
    | none => false

/-- Ids of the orders a sweep at time `now` expires. -/
def sweptIds (now : Nat) (s : State) : List Nat :=
  (s.orders.filter fun o => orderExpiredNow now o).map Order.id

/-- The order update of the sweep. -/
def expireOrder (now : Nat) (o : Order) : Order :=
  if orderExpiredNow now o then
    { o with status := OrderStatus.expired, updatedAt := now }
  else o

/-- The card update of the sweep: only `locked` cards of the swept orders
are released, clearing `orderId`/`lockedAt`. -/
def releaseCard (ids : List Nat) (c : Card) : Card :=
  if c.status = CardStatus.locked ∧ (∃ i ∈ ids, c.orderId = some i) then
    { c with status := CardStatus.available, orderId := none, lockedAt := none }
  else c

/-- `releaseExpiredOrders` (lines 266–317): one transaction that flips every
pending order past its `expiredAt` to `expired` and returns that order's
still-locked cards to `available`, clearing `orderId`/`lockedAt`.  Returns
the number of orders expired. -/
def releaseExpiredOrders (now : Nat) (s : State) : Nat × State :=
  let expiredIds := sweptIds now s
  if expiredIds.length = 0 then (0, s)
  else
    let s1 : State := { s with orders := s.orders.map (expireOrder now) }
    let s2 : State := { s1 with cards := s1.cards.map (releaseCard expiredIds) }
    (expiredIds.length, s2)

/-- `createOrder` after session/input validation (lines 73–147): lazy expiry
sweep, product lookup and quantity-range check, then the reservation
transaction. -/
def createOrder (productId quantity : Nat) (pm orderNo : String)
    (newOrderId : Nat) (userId : Option String) (now expiredAt : Nat)
    (s : State) : CreateOrderResult × State :=
  let s0 := (releaseExpiredOrders now s).2
  match s0.products.find? fun p => p.id = productId && p.isActive with
  | none => (CreateOrderResult.productNotFound, s0)
  | some product =>
    if quantity < product.minQuantity ∨ product.maxQuantity < quantity then
      (CreateOrderResult.quantityOutOfRange, s0)
    else
      createOrderTx productId quantity pm orderNo newOrderId userId
        product.priceCents now expiredAt product.name s0

/-- `handlePaymentSuccess` (lines 196–260): conditional
`UPDATE ... WHERE orderNo = ? AND status = 'pending'`; when it matches, mark
the order's cards `sold` and add the quantity to the product's sales count.
Returns `false` (after rolling back) when zero rows matched. -/
def handlePaymentSuccess (orderNo tradeNo : String) (now : Nat) (s : State) :
    Bool × State :=
  match s.orders.find? fun o => o.orderNo = orderNo && o.status = OrderStatus.pending with
  | none => (false, s)
  | some order =>
    let s1 : State :=
      { s with
        orders := s.orders.map fun o =>
          if o.orderNo = orderNo ∧ o.status = OrderStatus.pending then
            { o with status := OrderStatus.completed, tradeNo := some tradeNo,
                     paidAt := some now, updatedAt := now }
          else o }
    let s2 : State :=
      { s1 with
        cards := s1.cards.map fun c =>
          if c.orderId = some order.id then
            { c with status := CardStatus.sold, soldAt := some now }
          else c }
    let s3 : State :=
      match order.productId with
      | none => s2
      | some productId =>
        { s2 with
          products := s2.products.map fun p =>
            if p.id = productId then
              { p with salesCount := p.salesCount + order.quantity, updatedAt := now }
            else p }
    (true, s3)

/-- Result type of the admin/refund actions (`{success, message}`). -/
inductive ActionResult
  | ok
  | failure (message : String)
deriving DecidableEq, Repr

/-- `adminCompleteOrder` (lines 335–378, after `requireAdmin`): an
*unconditional* `UPDATE ... WHERE id = ?` to `completed` — there is no
`status = 'pending'` guard — then cards to `sold` and the sales-count
increment; fails only when no row matched the id. -/
def adminCompleteOrder (orderId : Nat) (remark : Option String) (now : Nat)
    (s : State) : ActionResult × State :=
  match s.orders.find? fun o => o.id = orderId with
  | none => (ActionResult.failure "订单不存在", s)
  | some order =>
    let s1 : State :=
      { s with
        orders := s.orders.map fun o =>
          if o.id = orderId then
            { o with status := OrderStatus.completed, paidAt := some now,
                     adminRemark := remark, updatedAt := now }
          else o }
    let s2 : State :=
      { s1 with
        cards := s1.cards.map fun c =>
          if c.orderId = some orderId then
            { c with status := CardStatus.sold, soldAt := some now }
          else c }
    let s3 : State :=
      match order.productId with
      | none => s2
      | some productId =>
        { s2 with
          products := s2.products.map fun p =>
            if p.id = productId then
              { p with salesCount := p.salesCount + order.quantity, updatedAt := now }
            else p }
    (ActionResult.ok, s3)

/-- `requestRefund` (lines 523–583, after session validation):
refund-enabled and reason-length checks, ownership lookup, `completed`
precondition, then the transition to `refund_pending`. -/
def requestRefund (orderNo : String) (userId : String) (reason : String)
    (refundEnabled : Bool) (now : Nat) (s : State) : ActionResult × State :=
  if !refundEnabled then (ActionResult.failure "退款功能未启用", s)
  else if (jsTrim reason).length < 5 then
    (ActionResult.failure "请填写退款原因（至少5个字符）", s)
  else
    match s.orders.find? fun o => o.orderNo = orderNo && o.userId = some userId with
    | none => (ActionResult.failure "订单不存在或无权访问", s)
    | some order =>
      if order.status ≠ OrderStatus.completed then
        (ActionResult.failure "仅已完成的订单可以申请退款", s)
      else
        (ActionResult.ok,
          { s with
            orders := s.orders.map fun o =>
              if o.id = order.id then
                { o with status := OrderStatus.refundPending,
                         refundReason := some (jsTrim reason),
                         refundRequestedAt := some now, updatedAt := now }
              else o })

/-- Response of the external `refundOrder` gateway call: `Except` for a
thrown error (network / non-JSON body), otherwise the parsed
`{code, msg}`. -/
def GatewayResult : Type := Except String (Int × String)

/-- `approveRefund` (lines 605–668, after `requireAdmin`): requires the
order to be `refund_pending` with a `tradeNo`; calls the gateway; only when
the gateway answers `code = 1` does it commit `refunded` and return the
order's cards to `available` (clearing `orderId`/`soldAt`); any other code
or a thrown gateway error leaves the state untouched and surfaces the
message. -/
def approveRefund (orderId : Nat) (remark : Option String)
    (refundEnabled : Bool) (gw : GatewayResult) (now : Nat) (s : State) :
    ActionResult × State :=
  if !refundEnabled then (ActionResult.failure "退款功能未启用，请配置 LDC_PROXY_URL", s)
  else
    match s.orders.find? fun o => o.id = orderId with
    | none => (ActionResult.failure "订单不存在", s)
    | some order =>
      if order.status ≠ OrderStatus.refundPending then
        (ActionResult.failure "该订单不在退款审核中", s)
      else
        match order.tradeNo with
        | none => (ActionResult.failure "订单缺少支付流水号，无法退款", s)
        | some _ =>
          match gw with
          | Except.error e => (ActionResult.failure e, s)
          | Except.ok (code, msg) =>
            if code ≠ 1 then
              (ActionResult.failure ("退款失败: " ++ msg), s)
            else
              let s1 : State :=
                { s with
                  orders := s.orders.map fun o =>
                    if o.id = orderId then
                      { o with status := OrderStatus.refunded,
                               adminRemark := some (remark.getD "退款已通过"),
                               refundedAt := some now, updatedAt := now }
                    else o }
              let s2 : State :=
                { s1 with
                  cards := s1.cards.map fun c =>
                    if c.orderId = some orderId then
                      { c with status := CardStatus.available, orderId := none,
                               soldAt := none }
                    else c }
              (ActionResult.ok, s2)

/-- `rejectRefund` (lines 673–717, after `requireAdmin`). -/
def rejectRefund (orderId : Nat) (remark : Option String) (now : Nat)
    (s : State) : ActionResult × State :=
  match s.orders.find? fun o => o.id = orderId with
  | none => (ActionResult.failure "订单不存在", s)
  | some order =>
    if order.status ≠ OrderStatus.refundPending then
      (ActionResult.failure "该订单不在退款审核中", s)
    else
      (ActionResult.ok,
        { s with
          orders := s.orders.map fun o =>
            if o.id = orderId then
              { o with status := OrderStatus.refundRejected,
                       adminRemark := some (remark.getD "退款申请已拒绝"),
                       updatedAt := now }
            else o })

/-- `markOrderRefunded` (lines 818–873, after `requireAdmin`): the
client-mode variant of refund approval; same state change as the success
branch of `approveRefund`, driven by the operator's attestation. -/
def markOrderRefunded (orderId : Nat) (remark : Option String) (now : Nat)
    (s : State) : ActionResult × State :=
  match s.orders.find? fun o => o.id = orderId with
  | none => (ActionResult.failure "订单不存在", s)
  | some order =>
    if order.status ≠ OrderStatus.refundPending then
      (ActionResult.failure "该订单不在退款审核中", s)
    else
      let s1 : State :=
        { s with
          orders := s.orders.map fun o =>
            if o.id = orderId then
              { o with status := OrderStatus.refunded,
                       adminRemark := some (remark.getD "退款已通过（客户端模式）"),
                       refundedAt := some now, updatedAt := now }
            else o }
      let s2 : State :=
        { s1 with
          cards := s1.cards.map fun c =>
            if c.orderId = some orderId then
              { c with status := CardStatus.available, orderId := none,
                       soldAt := none }
            else c }
      (ActionResult.ok, s2)

/-! ## Buyer-facing order views (`getUserOrders`, `getOrderByNo`) -/

/-- The per-order payload both queries return (the fields the claims need;
`cards` is the disclosed card-content list). -/
structure OrderView where
  orderNo : String
  productName : String
  quantity : Nat
  totalAmount : String
  status : OrderStatus
  paymentMethod : String
  paidAt : Option Nat
  cards : List String
deriving DecidableEq, Repr

/-- The shared projection: secret contents are attached only when the order
is `completed`/`paid`, and then only of its `sold` cards. -/
def orderView (s : State) (o : Order) : OrderView :=
  let ownCards := s.cards.filter fun c => c.orderId = some o.id
  let cardsToShow :=
    if o.status = OrderStatus.completed ∨ o.status = OrderStatus.paid then
      ownCards.filter fun c => c.status = CardStatus.sold
    else []
  { orderNo := o.orderNo, productName := o.productName, quantity := o.quantity,
    totalAmount := o.totalAmount, status := o.status,
    paymentMethod := o.paymentMethod, paidAt := o.paidAt,
    cards := cardsToShow.map Card.content }

/-- `getUserOrders` (lines 400–455, after session validation). -/
def getUserOrders (userId : String) (s : State) : List OrderView :=
  ((s.orders.filter fun o => o.userId = some userId).map (orderView s))

/-- `getOrderByNo` (lines 460–516, after session validation). -/
def getOrderByNo (orderNo : String) (userId : String) (s : State) :
    Option OrderView :=
  (s.orders.find? fun o => o.orderNo = orderNo && o.userId = some userId).map
    (orderView s)

/-! ## `src/app/api/payment/notify/route.ts` — webhook `GET` -/

/-- ASCII `String.prototype.toUpperCase`. -/
def jsUpper (s : String) : String := String.mk (s.data.map Char.toUpper)

/-- The environment the route reads (`LDC_CLIENT_SECRET`,
`LDC_CLIENT_ID`). -/
structure NotifyConfig where
  secret : Option String
  merchantPid : Option String
deriving DecidableEq, Repr

/-- A `NextResponse` as the gateway sees it. -/
structure HttpResponse where
  body : String
  status : Nat
deriving DecidableEq, Repr

def failResp (status : Nat) : HttpResponse := { body := "fail", status := status }

def successResp : HttpResponse := { body := "success", status := 200 }

/-- The fulfilment tail of the webhook (route.ts lines 213–267): attempt
`handlePaymentSuccess`; on a lost race re-read the order and acknowledge when
another actor already completed it, otherwise answer `"fail"` / 500. -/
def notifyFulfill (p : NotifyParams) (now : Nat) (s : State) : HttpResponse × State :=
  let hr := handlePaymentSuccess p.outTradeNo p.tradeNo now s
  if hr.1 then (successResp, hr.2)
  else
    match hr.2.orders.find? fun o => o.orderNo = p.outTradeNo with
    | some latest =>
      if latest.status = OrderStatus.completed ∨ latest.status = OrderStatus.paid then
        (successResp, hr.2)
      else (failResp 500, hr.2)
    | none => (failResp 500, hr.2)

/-- The webhook pipeline of `GET` (route.ts lines 37–268), in source order:
required fields, `sign_type`, configured secret and merchant id, `pid`
match, signature, order lookup, payment-channel match, cent reconciliation,
duplicate-delivery idempotency, `trade_status`, pending guard, then
`handlePaymentSuccess` with the lost-race re-read. -/
def notify (cfg : NotifyConfig) (p : NotifyParams) (now : Nat) (s : State) :
    HttpResponse × State :=
  if p.outTradeNo = "" ∨ p.sign = "" ∨ p.pid = "" ∨ p.tradeNo = "" ∨ p.money = "" then
    (failResp 400, s)
  else if p.signType ≠ "" ∧ jsUpper p.signType ≠ "MD5" then (failResp 400, s)
  else
    match cfg.secret with
    | none => (failResp 500, s)
    | some secret =>
      match cfg.merchantPid with
      | none => (failResp 500, s)
      | some merchantPid =>
        if p.pid ≠ merchantPid then (failResp 400, s)
        else if !verifySign p secret then (failResp 400, s)
        else
          match s.orders.find? fun o => o.orderNo = p.outTradeNo with
          | none => (failResp 400, s)
          | some order =>
            if order.paymentMethod ≠ "ldc" then (failResp 400, s)
            else
              let expectedCents := toCents order.totalAmount
              let receivedCents := toCents p.money
              if expectedCents = none ∨ receivedCents = none ∨
                  expectedCents ≠ receivedCents then (failResp 400, s)
              else if order.status = OrderStatus.completed ∨
                  order.status = OrderStatus.paid then (successResp, s)
              else if p.tradeStatus ≠ "TRADE_SUCCESS" then (successResp, s)
              else if order.status ≠ OrderStatus.pending then (successResp, s)
              else notifyFulfill p now s

/-! ## Traces of the mutating transactions

For the concurrency claims the system is modelled by arbitrary sequences of
the atomic transactions above — the serialization that the row-level
`FOR UPDATE` locks and conditional updates enforce. -/

/-- One invocation of a mutating entry point, with all of its inputs
(including the external gateway's answer for refund approval). -/
inductive Op
  | reserve (productId quantity : Nat) (pm orderNo : String) (newOrderId : Nat)
      (userId : Option String) (now expiredAt : Nat)
  | notifyOp (cfg : NotifyConfig) (p : NotifyParams) (now : Nat)
  | sweep (now : Nat)
  | adminComplete (orderId : Nat) (remark : Option String) (now : Nat)
  | reqRefund (orderNo userId reason : String) (enabled : Bool) (now : Nat)
  | approve (orderId : Nat) (remark : Option String) (enabled : Bool)
      (gw : GatewayResult) (now : Nat)
  | reject (orderId : Nat) (remark : Option String) (now : Nat)
  | markRefunded (orderId : Nat) (remark : Option String) (now : Nat)

/-- Effect of one operation on the store. -/
def step (s : State) : Op → State
  | Op.reserve productId quantity pm orderNo newOrderId userId now expiredAt =>
    (createOrder productId quantity pm orderNo newOrderId userId now expiredAt s).2
  | Op.notifyOp cfg p now => (notify cfg p now s).2
  | Op.sweep now => (releaseExpiredOrders now s).2
  | Op.adminComplete orderId remark now => (adminCompleteOrder orderId remark now s).2
  | Op.reqRefund orderNo userId reason enabled now =>
    (requestRefund orderNo userId reason enabled now s).2
  | Op.approve orderId remark enabled gw now =>
    (approveRefund orderId remark enabled gw now s).2
  | Op.reject orderId remark now => (rejectRefund orderId remark now s).2
  | Op.markRefunded orderId remark now => (markOrderRefunded orderId remark now s).2

/-- Run a sequence of operations. -/
def run (s : State) (ops : List Op) : State := ops.foldl step s

/-- The states visited while running a sequence of operations (initial state
included). -/
def traceStates (s : State) : List Op → List State
  | [] => [s]
  | op :: ops => s :: traceStates (step s op) ops

/-- Sequential delivery of the same notification at the given times,
collecting the responses. -/
def notifyTimes (cfg : NotifyConfig) (p : NotifyParams) :
    List Nat → State → List HttpResponse × State
  | [], s => ([], s)
  | t :: ts, s =>
    let r := notify cfg p t s
    let rest := notifyTimes cfg p ts r.2
    (r.1 :: rest.1, rest.2)

/-! ## Definitions for the signature claims -/

/-- A full notification parameter set as an association list (the nine wire
fields, in `NotifyParams` field order). -/
def notifyEntries (p : NotifyParams) : List (String × Option String) :=
  [("pid", some p.pid), ("trade_no", some p.tradeNo),
   ("out_trade_no", some p.outTradeNo), ("type", some p.payType),
   ("name", some p.name), ("money", some p.money),
   ("trade_status", some p.tradeStatus), ("sign_type", some p.signType),
   ("sign", some p.sign)]

/-- The notification as signed by the protocol: `sign` recomputed by
`generateSign` over the parameter set. -/
def withSign (p : NotifyParams) (secret : String) : NotifyParams :=
  { p with sign := generateSign (notifyEntries p) secret }

/-- Number of positions at which two equal-length strings differ. -/
def diffCount (v v' : String) : Nat :=
  ((v.data.zip v'.data).filter fun ab => ab.1 ≠ ab.2).length

/-- `v'` is `v` with exactly one character changed (same length, exactly one
position differing). -/
def mutated1 (v v' : String) : Prop :=
  v.data.length = v'.data.length ∧ diffCount v v' = 1

instance (v v' : String) : Decidable (mutated1 v v') := by
  unfold mutated1
  infer_instance

/-- One entry of the list has its value single-character-mutated; all other
entries are unchanged. -/
def pairsMutated1 : List (String × String) → List (String × String) → Prop
  | [], [] => False
  | a :: l, b :: l' => (a.1 = b.1 ∧ mutated1 a.2 b.2 ∧ l = l') ∨ (a = b ∧ pairsMutated1 l l')
  | _, _ => False

/-- Pointwise alignment of two entry lists: equal keys and equal value
lengths. -/
def pairsAligned (l l' : List (String × String)) : Prop :=
  List.Forall₂ (fun a b : String × String => a.1 = b.1 ∧ a.2.data.length = b.2.data.length) l l'

/-- One `key=value` segment. -/
def seg (kv : String × String) : String := kv.1 ++ "=" ++ kv.2

/-- Adjacent-sorted by `localeCompare` on keys. -/
def keyLe (a b : String × String) : Prop := localeCompare a.1 b.1 ≠ Ordering.gt

/-! ## Definitions for the no-overselling claim -/

/-- How one step may evolve one card: its identity and product never change,
and a card that is `sold` before and after the step keeps its owning order
— a sold card's owner can only change by first returning to `available`
(refund approval). -/
def CardEvo (c c' : Card) : Prop :=
  c'.id = c.id ∧ c'.productId = c.productId ∧
    (c.status = CardStatus.sold → c'.status = CardStatus.sold → c'.orderId = c.orderId)

/-- Ids of the product's cards currently `locked` or `sold`. -/
def lockedSoldIds (productId : Nat) (s : State) : List Nat :=
  ((s.cards.filter fun c =>
    c.productId = productId ∧
      (c.status = CardStatus.locked ∨ c.status = CardStatus.sold)).map Card.id)

/-- Ids of the product's cards that are `locked` or `sold` at any point of
the run (initial state included). -/
def everLockedSold (productId : Nat) (s : State) (ops : List Op) : Finset Nat :=
  ((traceStates s ops).flatMap fun t => lockedSoldIds productId t).toFinset

/-- A card-update function every transaction's card write satisfies. -/
def cardEvoFun (f : Card → Card) : Prop := ∀ c, CardEvo c (f c)

/-- Identity and product of a card are invariant across any run. -/
def CardSame (c c' : Card) : Prop := c'.id = c.id ∧ c'.productId = c.productId

/-! ## Concrete example stores -/

/-- A store with a single *expired* order (id 1, quantity 2, product 7, its
cards already released by the sweep) used to exhibit `adminCompleteOrder`'s
missing status guard. -/
def expiredOrderState : State :=
  { products := [{ id := 7, name := "P", slug := "p", priceCents := 500,
                   minQuantity := 1, maxQuantity := 10, isActive := true,
                   salesCount := 0, updatedAt := 0 }],
    orders := [{ id := 1, orderNo := "O1", productId := some 7,
                 productName := "P", quantity := 2, totalAmount := "10.00",
                 paymentMethod := "ldc", status := OrderStatus.expired,
                 tradeNo := none, userId := some "u", expiredAt := some 50,
                 paidAt := none, updatedAt := 60, adminRemark := none,
                 refundReason := none, refundRequestedAt := none,
                 refundedAt := none }],
    cards := [{ id := 11, productId := 7, content := "secret-a",
                status := CardStatus.available, orderId := none,
                lockedAt := none, soldAt := none }] }

/-- A store with one `refund_pending` order holding two sold cards, used to
witness C5 (and the refunded-pool behaviour). -/
def refundPendingState : State :=
  { products := [{ id := 7, name := "P", slug := "p", priceCents := 500,
                   minQuantity := 1, maxQuantity := 10, isActive := true,
                   salesCount := 2, updatedAt := 0 }],
    orders := [{ id := 1, orderNo := "O1", productId := some 7,
                 productName := "P", quantity := 2, totalAmount := "10.00",
                 paymentMethod := "ldc", status := OrderStatus.refundPending,
                 tradeNo := some "T1", userId := some "u", expiredAt := some 50,
                 paidAt := some 40, updatedAt := 60, adminRemark := none,
                 refundReason := some "reason text", refundRequestedAt := some 55,
                 refundedAt := none }],
    cards := [{ id := 11, productId := 7, content := "secret-a",
                status := CardStatus.sold, orderId := some 1,
                lockedAt := some 30, soldAt := some 40 },
              { id := 12, productId := 7, content := "secret-b",
                status := CardStatus.sold, orderId := some 1,
                lockedAt := some 30, soldAt := some 40 }] }

/-- Disclosure discipline of a buyer-facing order view: no card content
unless the order is `completed`/`paid`, and every disclosed content comes
from a `sold` card of the store. -/
def viewDisclosureOk (s : State) (v : OrderView) : Prop :=
  (v.status ≠ OrderStatus.completed ∧ v.status ≠ OrderStatus.paid → v.cards = []) ∧
    ∀ content ∈ v.cards, ∃ c ∈ s.cards, c.status = CardStatus.sold ∧ c.content = content

/-- A store with one pending order `O1` (total `"10.00"`, channel `ldc`)
holding two locked cards, awaiting its payment notification. -/
def pendingOrderState : State :=
  { products := [{ id := 7, name := "P", slug := "p", priceCents := 500,
                   minQuantity := 1, maxQuantity := 10, isActive := true,
                   salesCount := 0, updatedAt := 0 }],
    orders := [{ id := 1, orderNo := "O1", productId := some 7,
                 productName := "P", quantity := 2, totalAmount := "10.00",
                 paymentMethod := "ldc", status := OrderStatus.pending,
                 tradeNo := none, userId := some "u", expiredAt := some 100000,
                 paidAt := none, updatedAt := 10, adminRemark := none,
                 refundReason := none, refundRequestedAt := none,
                 refundedAt := none }],
    cards := [{ id := 11, productId := 7, content := "secret-a",
                status := CardStatus.locked, orderId := some 1,
                lockedAt := some 10, soldAt := none },
              { id := 12, productId := 7, content := "secret-b",
                status := CardStatus.locked, orderId := some 1,
                lockedAt := some 10, soldAt := none }] }

/-- The webhook environment for the example: secret `"secret"`, merchant id
`"1001"`. -/
def exampleCfg : NotifyConfig := { secret := some "secret", merchantPid := some "1001" }

/-- A correctly signed `TRADE_SUCCESS` notification for order `O1` over
`"10.00"` (the `sign` value is the MD5 the protocol prescribes). -/
def validNotify : NotifyParams :=
  { pid := "1001", tradeNo := "T1", outTradeNo := "O1", payType := "epay",
    name := "P", money := "10.00", tradeStatus := "TRADE_SUCCESS",
    signType := "MD5", sign := "e2b070e790329eb67137d6c16c16298f" }

/-- `validNotify` with the last character of `money` changed and the sign
recomputed over the *original* parameters — a single-character tamper. -/
def tamperedNotify : NotifyParams :=
  { validNotify with money := "10.01", sign := generateSign (notifyEntries validNotify) "secret" }

/-- A correctly signed notification for `O1` carrying the *wrong* amount
`"10.01"` (signature valid, so rejection can only come from amount
reconciliation). -/
def wrongAmountNotify : NotifyParams :=
  { pid := "1001", tradeNo := "T1", outTradeNo := "O1", payType := "epay",
    name := "P", money := "10.01", tradeStatus := "TRADE_SUCCESS",
    signType := "MD5", sign := "96671e89e6a619310f4fe53e6faf9235" }

/-! ## Helper lemmas -/

theorem find?_and_of_find? {α : Type} (q r : α → Bool) (l : List α) (a : α)
    (hq : l.find? q = some a) (hr : r a = true) :
    l.find? (fun x => q x && r x) = some a := by
  induction l with
  | nil => simp at hq
  | cons h t ih =>
    by_cases hh : q h
    · rw [List.find?_cons_of_pos _ hh] at hq
      injection hq with hq
      subst hq
      rw [List.find?_cons_of_pos]
      simp [hh, hr]
    · rw [List.find?_cons_of_neg _ (by simpa using hh)] at hq
      rw [List.find?_cons_of_neg]
      · exact ih hq
      · simp [hh]

/-! ## C4 — insufficient stock aborts with zero mutation -/

/-- **C4.** For every reservation request of quantity `q` on a product with
fewer than `q` available cards, the `createOrder` transaction aborts with
zero mutation — the state (orders and cards) is returned unchanged — and
signals insufficient stock carrying the actual available count. -/
theorem createOrderTx_insufficient_stock
    (productId quantity : Nat) (pm orderNo : String) (newOrderId : Nat)
    (userId : Option String) (priceCents now expiredAt : Nat)
    (productName : String) (s : State)
    (h : (s.cards.filter fun c =>
        c.productId = productId ∧ c.status = CardStatus.available).length < quantity) :
    createOrderTx productId quantity pm orderNo newOrderId userId priceCents
        now expiredAt productName s =
      (CreateOrderResult.insufficientStock
        (s.cards.filter fun c =>
          c.productId = productId ∧ c.status = CardStatus.available).length, s) := by
  unfold createOrderTx
  rw [List.take_of_length_le (Nat.le_of_lt h)]
  rw [if_pos h]

/-- Witness for C4 at a concrete store: one product with two available
cards, quantity three. -/
theorem createOrderTx_insufficient_stock_witness :
    (({ products := [], orders := [],
        cards := [
          { id := 1, productId := 7, content := "a", status := CardStatus.available,
            orderId := none, lockedAt := none, soldAt := none },
          { id := 2, productId := 7, content := "b", status := CardStatus.available,
            orderId := none, lockedAt := none, soldAt := none }] } : State).cards.filter
        fun c => c.productId = 7 ∧ c.status = CardStatus.available).length < 3 ∧
      createOrderTx 7 3 "ldc" "LD1" 10 (some "u") 200 5 6 "P"
          { products := [], orders := [],
            cards := [
              { id := 1, productId := 7, content := "a", status := CardStatus.available,
                orderId := none, lockedAt := none, soldAt := none },
              { id := 2, productId := 7, content := "b", status := CardStatus.available,
                orderId := none, lockedAt := none, soldAt := none }] } =
        (CreateOrderResult.insufficientStock 2,
          { products := [], orders := [],
            cards := [
              { id := 1, productId := 7, content := "a", status := CardStatus.available,
                orderId := none, lockedAt := none, soldAt := none },
              { id := 2, productId := 7, content := "b", status := CardStatus.available,
                orderId := none, lockedAt := none, soldAt := none }] }) :=
  ⟨by decide, by
    have h := createOrderTx_insufficient_stock 7 3 "ldc" "LD1" 10 (some "u") 200 5 6 "P"
      { products := [], orders := [],
        cards := [
          { id := 1, productId := 7, content := "a", status := CardStatus.available,
            orderId := none, lockedAt := none, soldAt := none },
          { id := 2, productId := 7, content := "b", status := CardStatus.available,
            orderId := none, lockedAt := none, soldAt := none }] } (by decide)
    simpa using h⟩

/-! ## C3 — the admin manual-complete has no `pending` precondition -/


/-- **C3, counterexample.**  On an order whose status is `expired` — not
`pending` — `adminCompleteOrder` does *not* reject: it reports success,
rewrites the order to `completed`, and increments the product's
`salesCount`, contradicting the claim that a manual complete on a
non-pending order rejects before any write. -/
theorem adminCompleteOrder_accepts_expired_order :
    expiredOrderState.orders.map Order.status = [OrderStatus.expired] ∧
      (adminCompleteOrder 1 none 99 expiredOrderState).1 = ActionResult.ok ∧
      ((adminCompleteOrder 1 none 99 expiredOrderState).2).orders.map Order.status =
        [OrderStatus.completed] ∧
      ((adminCompleteOrder 1 none 99 expiredOrderState).2).products.map Product.salesCount =
        [2] ∧
      expiredOrderState.products.map Product.salesCount = [0] := by
  decide

/-- **C3, amended.**  `adminCompleteOrder` checks only that the order row
exists: for every existing order — *whatever its current status* — the call
reports success, sets the order to `completed` (recording `paidAt` and the
remark), flips every card referencing the order to `sold`, and adds the
order's quantity to the product's sales count.  It rejects only when no
order has the given id, in which case the state is unchanged. -/
theorem adminCompleteOrder_unconditional (orderId : Nat) (remark : Option String)
    (now : Nat) (s : State) (order : Order)
    (hfind : s.orders.find? (fun o => o.id = orderId) = some order) :
    (adminCompleteOrder orderId remark now s).1 = ActionResult.ok ∧
      (∀ o ∈ s.orders, o.id = orderId →
        { o with status := OrderStatus.completed, paidAt := some now,
                 adminRemark := remark, updatedAt := now } ∈
          (adminCompleteOrder orderId remark now s).2.orders) ∧
      (∀ c ∈ s.cards, c.orderId = some orderId →
        { c with status := CardStatus.sold, soldAt := some now } ∈
          (adminCompleteOrder orderId remark now s).2.cards) := by
  simp only [adminCompleteOrder, hfind]
  refine ⟨trivial, ?_, ?_⟩
  · intro o ho hid
    cases order.productId <;>
      · refine List.mem_map.mpr ⟨o, ho, ?_⟩
        rw [if_pos hid]
  · intro c hc hcid
    cases order.productId <;>
      · refine List.mem_map.mpr ⟨c, hc, ?_⟩
        rw [if_pos hcid]

/-- Witness for the amended C3 at the concrete expired-order store. -/
theorem adminCompleteOrder_unconditional_witness :
    (adminCompleteOrder 1 none 99 expiredOrderState).1 = ActionResult.ok :=
  (adminCompleteOrder_unconditional 1 none 99 expiredOrderState
    { id := 1, orderNo := "O1", productId := some 7, productName := "P",
      quantity := 2, totalAmount := "10.00", paymentMethod := "ldc",
      status := OrderStatus.expired, tradeNo := none, userId := some "u",
      expiredAt := some 50, paidAt := none, updatedAt := 60,
      adminRemark := none, refundReason := none, refundRequestedAt := none,
      refundedAt := none } (by decide)).1

/-! ## C5 — refund approval is gated on gateway success, no partial commit -/

/-- **C5.**  For an order in `refund_pending` (with a trade number), refund
approval commits `refund_pending → refunded` *together with* returning the
order's cards to the available pool only when the gateway answers success
code `1`; when the gateway answers any other code, or the call throws, the
whole state is returned unchanged — the order stays `refund_pending`, no
card changes status — and the failure message is surfaced. -/
theorem approveRefund_gateway_gated (orderId : Nat) (remark : Option String)
    (now : Nat) (s : State) (order : Order) (tn : String)
    (hfind : s.orders.find? (fun o => o.id = orderId) = some order)
    (hstatus : order.status = OrderStatus.refundPending)
    (htn : order.tradeNo = some tn) :
    (∀ e, approveRefund orderId remark true (Except.error e) now s =
        (ActionResult.failure e, s)) ∧
      (∀ code msg, code ≠ 1 →
        approveRefund orderId remark true (Except.ok (code, msg)) now s =
          (ActionResult.failure ("退款失败: " ++ msg), s)) ∧
      (∀ msg,
        (approveRefund orderId remark true (Except.ok (1, msg)) now s).1 =
            ActionResult.ok ∧
          (∀ o ∈ s.orders, o.id = orderId →
            { o with status := OrderStatus.refunded,
                     adminRemark := some (remark.getD "退款已通过"),
                     refundedAt := some now, updatedAt := now } ∈
              (approveRefund orderId remark true (Except.ok (1, msg)) now s).2.orders) ∧
          (∀ c ∈ s.cards, c.orderId = some orderId →
            { c with status := CardStatus.available, orderId := none,
                     soldAt := none } ∈
              (approveRefund orderId remark true (Except.ok (1, msg)) now s).2.cards) ∧
          (∀ c ∈ s.cards, c.orderId ≠ some orderId →
            c ∈ (approveRefund orderId remark true (Except.ok (1, msg)) now s).2.cards)) := by
  simp only [approveRefund, hfind, hstatus, htn]
  refine ⟨fun e => rfl, fun code msg hcode => ?_, fun msg => ?_⟩
  · simp [hcode]
  · refine ⟨by simp, ?_, ?_, ?_⟩
    · intro o ho hid
      simp only [if_neg (by simp : ¬(1 : Int) ≠ 1)]
      refine List.mem_map.mpr ⟨o, ho, ?_⟩
      rw [if_pos hid]
    · intro c hc hcid
      simp only [if_neg (by simp : ¬(1 : Int) ≠ 1)]
      refine List.mem_map.mpr ⟨c, hc, ?_⟩
      rw [if_pos hcid]
    · intro c hc hcid
      simp only [if_neg (by simp : ¬(1 : Int) ≠ 1)]
      refine List.mem_map.mpr ⟨c, hc, ?_⟩
      rw [if_neg hcid]


/-- Witness for C5: at the concrete `refund_pending` store, a gateway answer
`{code: 0}` leaves everything unchanged and a `{code: 1}` answer commits. -/
theorem approveRefund_gateway_gated_witness :
    approveRefund 1 none true (Except.ok (0, "no")) 99 refundPendingState =
      (ActionResult.failure ("退款失败: " ++ "no"), refundPendingState) :=
  ((approveRefund_gateway_gated 1 none 99 refundPendingState
      { id := 1, orderNo := "O1", productId := some 7, productName := "P",
        quantity := 2, totalAmount := "10.00", paymentMethod := "ldc",
        status := OrderStatus.refundPending, tradeNo := some "T1",
        userId := some "u", expiredAt := some 50, paidAt := some 40,
        updatedAt := 60, adminRemark := none, refundReason := some "reason text",
        refundRequestedAt := some 55, refundedAt := none } "T1"
      (by decide) (by decide) (by decide)).2.1 0 "no" (by decide))

/-! ## C10 — card secrets are disclosed only on completed/paid orders -/


theorem orderView_disclosure (s : State) (o : Order) :
    viewDisclosureOk s (orderView s o) := by
  constructor
  · intro hnot
    have hcond : ¬(o.status = OrderStatus.completed ∨ o.status = OrderStatus.paid) := by
      intro hor
      rcases hor with h | h
      · exact hnot.1 (by simp [orderView, h])
      · exact hnot.2 (by simp [orderView, h])
    simp [orderView, if_neg hcond]
  · intro content hcontent
    simp only [orderView] at hcontent
    by_cases hcond : o.status = OrderStatus.completed ∨ o.status = OrderStatus.paid
    · rw [if_pos hcond] at hcontent
      rcases List.mem_map.mp hcontent with ⟨c, hcmem, hceq⟩
      have hsold := (List.mem_filter.mp hcmem).2
      have hcards := (List.mem_filter.mp (List.mem_filter.mp hcmem).1).1
      exact ⟨c, hcards, by simpa using hsold, hceq⟩
    · rw [if_neg hcond] at hcontent
      simp at hcontent

/-- **C10.**  In every buyer-facing order query (`getUserOrders`,
`getOrderByNo`) a card's secret content appears in the result only when the
order's status is `completed` or `paid` and that content belongs to a `sold`
card; for orders in any other status the returned card-content list is
empty. -/
theorem buyer_queries_disclosure (s : State) (userId orderNo : String) :
    (∀ v ∈ getUserOrders userId s, viewDisclosureOk s v) ∧
      (∀ v, getOrderByNo orderNo userId s = some v → viewDisclosureOk s v) := by
  constructor
  · intro v hv
    rcases List.mem_map.mp hv with ⟨o, _, hview⟩
    exact hview ▸ orderView_disclosure s o
  · intro v hv
    rcases Option.map_eq_some'.mp hv with ⟨o, _, hview⟩
    exact hview ▸ orderView_disclosure s o

/-- Witness for C10 at a concrete store: the refund-pending order's view
discloses nothing. -/
theorem buyer_queries_disclosure_witness :
    viewDisclosureOk refundPendingState
      { orderNo := "O1", productName := "P", quantity := 2,
        totalAmount := "10.00", status := OrderStatus.refundPending,
        paymentMethod := "ldc", paidAt := some 40, cards := [] } :=
  (buyer_queries_disclosure refundPendingState "u" "O1").2
    { orderNo := "O1", productName := "P", quantity := 2,
      totalAmount := "10.00", status := OrderStatus.refundPending,
      paymentMethod := "ldc", paidAt := some 40, cards := [] } (by decide)

/-! ## C9 — the expiry sweep, and its idempotence -/

theorem map_id_of_mem {α : Type} (l : List α) (f : α → α) (h : ∀ a ∈ l, f a = a) :
    l.map f = l := by
  induction l with
  | nil => rfl
  | cons x xs ih => simp only [List.map_cons, h x (by simp), ih fun a ha => h a (by simp [ha])]

theorem orderExpiredNow_expireOrder (now : Nat) (o : Order) :
    orderExpiredNow now (expireOrder now o) = false := by
  unfold expireOrder
  split
  · simp [orderExpiredNow]
  · next h => simpa using h

theorem releaseExpiredOrders_of_no_expired (now : Nat) (t : State)
    (ht : ∀ o ∈ t.orders, orderExpiredNow now o = false) :
    releaseExpiredOrders now t = (0, t) := by
  have hids : sweptIds now t = [] := by
    unfold sweptIds
    rw [List.filter_eq_nil_iff.mpr fun o ho => by simp [ht o ho]]
    rfl
  unfold releaseExpiredOrders
  rw [hids]
  rfl

/-- **C9.**  A sweep at time `now` transitions, in one transaction, every
pending order whose `expiredAt` is before `now` to `expired` (`expireOrder`)
and flips exactly those orders' locked cards back to available, clearing
`orderId` and `lockedAt` (`releaseCard`), reporting the number of orders
expired; and running the sweep again on the resulting state is a no-op —
the second sweep expires zero orders and returns the state unchanged. -/
theorem releaseExpiredOrders_sweep (now : Nat) (s : State) :
    releaseExpiredOrders now s =
      ((sweptIds now s).length,
        { s with orders := s.orders.map (expireOrder now),
                 cards := s.cards.map (releaseCard (sweptIds now s)) }) ∧
      releaseExpiredOrders now (releaseExpiredOrders now s).2 =
        (0, (releaseExpiredOrders now s).2) := by
  have horders : ∀ o' ∈ ((releaseExpiredOrders now s).2).orders,
      orderExpiredNow now o' = false := by
    simp only [releaseExpiredOrders]
    split
    · next h =>
      intro o' ho'
      have hnil : sweptIds now s = [] := List.length_eq_zero.mp h
      have := List.filter_eq_nil_iff.mp (by
        have := congrArg (fun l : List Nat => l) hnil
        unfold sweptIds at hnil
        exact List.map_eq_nil_iff.mp hnil)
      simpa using this o' ho'
    · intro o' ho'
      simp only [List.mem_map] at ho'
      obtain ⟨o, _, rfl⟩ := ho'
      exact orderExpiredNow_expireOrder now o
  refine ⟨?_, releaseExpiredOrders_of_no_expired now _ horders⟩
  simp only [releaseExpiredOrders]
  split
  · next h =>
    have hnil : sweptIds now s = [] := List.length_eq_zero.mp h
    have hall : ∀ o ∈ s.orders, orderExpiredNow now o = false := by
      intro o ho
      have hfil := List.filter_eq_nil_iff.mp (by
        unfold sweptIds at hnil
        exact List.map_eq_nil_iff.mp hnil)
      simpa using hfil o ho
    rw [hnil]
    have h1 : s.orders.map (expireOrder now) = s.orders :=
      map_id_of_mem _ _ fun o ho => by
        unfold expireOrder
        rw [if_neg (by simp [hall o ho])]
    have h2 : s.cards.map (releaseCard []) = s.cards :=
      map_id_of_mem _ _ fun c _ => by
        unfold releaseCard
        rw [if_neg (by simp)]
    rw [h1, h2]
    rfl
  · rfl

/-! ## Webhook pipeline lemmas (towards C2 and C6) -/

theorem find?_map_orderNo (f : Order → Order) (hkey : ∀ o, (f o).orderNo = o.orderNo)
    (l : List Order) (n : String) :
    (l.map f).find? (fun o => o.orderNo = n) =
      (l.find? (fun o => o.orderNo = n)).map f := by
  induction l with
  | nil => rfl
  | cons h t ih =>
    by_cases hh : h.orderNo = n
    · rw [List.map_cons, List.find?_cons_of_pos _ (by simp [hkey, hh]),
        List.find?_cons_of_pos _ (by simp [hh])]
      rfl
    · rw [List.map_cons, List.find?_cons_of_neg _ (by simp [hkey, hh]),
        List.find?_cons_of_neg _ (by simp [hh])]
      exact ih

/-- The reconciliation gate of the webhook: with the pipeline reaching the
amount check, a parse failure on either side or unequal cent values answers
`"fail"` (HTTP 400) and leaves the store untouched. -/
theorem notify_cents_mismatch (cfg : NotifyConfig) (p : NotifyParams)
    (now : Nat) (s : State) (secret : String) (order : Order)
    (h1 : p.outTradeNo ≠ "") (h2 : p.sign ≠ "") (h3 : p.pid ≠ "")
    (h4 : p.tradeNo ≠ "") (h5 : p.money ≠ "")
    (hst : p.signType = "" ∨ jsUpper p.signType = "MD5")
    (hsec : cfg.secret = some secret)
    (hmp : cfg.merchantPid = some p.pid)
    (hsig : verifySign p secret = true)
    (hord : s.orders.find? (fun o => o.orderNo = p.outTradeNo) = some order)
    (hpm : order.paymentMethod = "ldc")
    (hbad : toCents order.totalAmount = none ∨ toCents p.money = none ∨
      toCents order.totalAmount ≠ toCents p.money) :
    notify cfg p now s = (failResp 400, s) := by
  simp only [notify, hsec, hmp, hord]
  rw [if_neg (by simp [h1, h2, h3, h4, h5])]
  rw [if_neg (by rcases hst with h | h <;> simp [h])]
  rw [if_neg (by simp), if_neg (by simp [hsig])]
  rw [if_neg (by simp [hpm])]
  rw [if_pos (by tauto)]

/-- Duplicate-delivery idempotency: when the order is already
`completed`/`paid` (and the checks up to reconciliation pass), the webhook
answers `"success"` without touching the store. -/
theorem notify_done_noop (cfg : NotifyConfig) (p : NotifyParams)
    (now : Nat) (s : State) (secret : String) (order : Order) (cents : Int)
    (h1 : p.outTradeNo ≠ "") (h2 : p.sign ≠ "") (h3 : p.pid ≠ "")
    (h4 : p.tradeNo ≠ "") (h5 : p.money ≠ "")
    (hst : p.signType = "" ∨ jsUpper p.signType = "MD5")
    (hsec : cfg.secret = some secret)
    (hmp : cfg.merchantPid = some p.pid)
    (hsig : verifySign p secret = true)
    (hord : s.orders.find? (fun o => o.orderNo = p.outTradeNo) = some order)
    (hpm : order.paymentMethod = "ldc")
    (hcexp : toCents order.totalAmount = some cents)
    (hcrec : toCents p.money = some cents)
    (hdone : order.status = OrderStatus.completed ∨ order.status = OrderStatus.paid) :
    notify cfg p now s = (successResp, s) := by
  simp only [notify, hsec, hmp, hord]
  rw [if_neg (by simp [h1, h2, h3, h4, h5])]
  rw [if_neg (by rcases hst with h | h <;> simp [h])]
  rw [if_neg (by simp), if_neg (by simp [hsig])]
  rw [if_neg (by simp [hpm])]
  rw [if_neg (by simp [hcexp, hcrec])]
  rw [if_pos hdone]

/-- First valid delivery for a pending order: the webhook answers
`"success"` and the store is the one `handlePaymentSuccess` commits. -/
theorem notify_pending_completes (cfg : NotifyConfig) (p : NotifyParams)
    (now : Nat) (s : State) (secret : String) (order : Order) (cents : Int)
    (h1 : p.outTradeNo ≠ "") (h2 : p.sign ≠ "") (h3 : p.pid ≠ "")
    (h4 : p.tradeNo ≠ "") (h5 : p.money ≠ "")
    (hst : p.signType = "" ∨ jsUpper p.signType = "MD5")
    (hsec : cfg.secret = some secret)
    (hmp : cfg.merchantPid = some p.pid)
    (hsig : verifySign p secret = true)
    (hord : s.orders.find? (fun o => o.orderNo = p.outTradeNo) = some order)
    (hpm : order.paymentMethod = "ldc")
    (hcexp : toCents order.totalAmount = some cents)
    (hcrec : toCents p.money = some cents)
    (hpend : order.status = OrderStatus.pending)
    (hts : p.tradeStatus = "TRADE_SUCCESS") :
    notify cfg p now s =
      (successResp, (handlePaymentSuccess p.outTradeNo p.tradeNo now s).2) ∧
      (handlePaymentSuccess p.outTradeNo p.tradeNo now s).1 = true := by
  have hfindp : s.orders.find?
      (fun o => o.orderNo = p.outTradeNo && o.status = OrderStatus.pending) = some order := by
    have := find?_and_of_find? (fun o => decide (o.orderNo = p.outTradeNo))
      (fun o => decide (o.status = OrderStatus.pending)) s.orders order hord
      (by simp [hpend])
    simpa using this
  have hhandle : (handlePaymentSuccess p.outTradeNo p.tradeNo now s).1 = true := by
    simp only [handlePaymentSuccess, hfindp]
  refine ⟨?_, hhandle⟩
  simp only [notify, hsec, hmp, hord]
  rw [if_neg (by simp [h1, h2, h3, h4, h5])]
  rw [if_neg (by rcases hst with h | h <;> simp [h])]
  rw [if_neg (by simp), if_neg (by simp [hsig])]
  rw [if_neg (by simp [hpm])]
  rw [if_neg (by simp [hcexp, hcrec])]
  rw [if_neg (by simp [hpend])]
  rw [if_neg (by simp [hts])]
  rw [if_neg (by simp [hpend])]
  simp only [notifyFulfill, handlePaymentSuccess, hfindp]
  rw [if_pos trivial]

theorem handlePaymentSuccess_state (orderNo tradeNo : String) (now : Nat)
    (s : State) (order : Order)
    (hord : s.orders.find? (fun o => o.orderNo = orderNo) = some order)
    (hpend : order.status = OrderStatus.pending) :
    (handlePaymentSuccess orderNo tradeNo now s).1 = true ∧
      ((handlePaymentSuccess orderNo tradeNo now s).2).orders.find?
          (fun o => o.orderNo = orderNo) =
        some { order with status := OrderStatus.completed, tradeNo := some tradeNo,
                          paidAt := some now, updatedAt := now } := by
  have hfindp : s.orders.find?
      (fun o => o.orderNo = orderNo && o.status = OrderStatus.pending) = some order := by
    have := find?_and_of_find? (fun o => decide (o.orderNo = orderNo))
      (fun o => decide (o.status = OrderStatus.pending)) s.orders order hord
      (by simp [hpend])
    simpa using this
  have hONo : order.orderNo = orderNo := by
    have := List.find?_some hord
    simpa using this
  constructor
  · simp only [handlePaymentSuccess, hfindp]
  · have horders : ((handlePaymentSuccess orderNo tradeNo now s).2).orders =
        s.orders.map fun o =>
          if o.orderNo = orderNo ∧ o.status = OrderStatus.pending then
            { o with status := OrderStatus.completed, tradeNo := some tradeNo,
                     paidAt := some now, updatedAt := now }
          else o := by
      cases hpid : order.productId <;> simp only [handlePaymentSuccess, hfindp, hpid]
    rw [horders, find?_map_orderNo _ (fun o => by split <;> rfl), hord,
      Option.map_some']
    rw [if_pos ⟨hONo, hpend⟩]

/-! ## C2 — webhook idempotence under repeated delivery -/

/-- **C2.**  Delivering an identical valid payment notification for a
pending order any number of times yields exactly one `pending → completed`
transition — the first delivery commits `handlePaymentSuccess` and the
stored order becomes `completed` — and every later delivery is a no-op that
leaves the store bit-identical; every response (first and repeats, at
arbitrary later times) is the literal body `"success"` (HTTP 200). -/
theorem webhook_idempotent (cfg : NotifyConfig) (p : NotifyParams)
    (now : Nat) (s : State) (secret : String) (order : Order) (cents : Int)
    (h1 : p.outTradeNo ≠ "") (h2 : p.sign ≠ "") (h3 : p.pid ≠ "")
    (h4 : p.tradeNo ≠ "") (h5 : p.money ≠ "")
    (hst : p.signType = "" ∨ jsUpper p.signType = "MD5")
    (hsec : cfg.secret = some secret)
    (hmp : cfg.merchantPid = some p.pid)
    (hsig : verifySign p secret = true)
    (hord : s.orders.find? (fun o => o.orderNo = p.outTradeNo) = some order)
    (hpm : order.paymentMethod = "ldc")
    (hcexp : toCents order.totalAmount = some cents)
    (hcrec : toCents p.money = some cents)
    (hpend : order.status = OrderStatus.pending)
    (hts : p.tradeStatus = "TRADE_SUCCESS") :
    notify cfg p now s =
        (successResp, (handlePaymentSuccess p.outTradeNo p.tradeNo now s).2) ∧
      ((handlePaymentSuccess p.outTradeNo p.tradeNo now s).2).orders.find?
          (fun o => o.orderNo = p.outTradeNo) =
        some { order with status := OrderStatus.completed, tradeNo := some p.tradeNo,
                          paidAt := some now, updatedAt := now } ∧
      ∀ times : List Nat,
        notifyTimes cfg p times (handlePaymentSuccess p.outTradeNo p.tradeNo now s).2 =
          (times.map fun _ => successResp,
            (handlePaymentSuccess p.outTradeNo p.tradeNo now s).2) := by
  obtain ⟨hh1, hh2⟩ := handlePaymentSuccess_state p.outTradeNo p.tradeNo now s order
    hord hpend
  have hfirst := (notify_pending_completes cfg p now s secret order cents h1 h2 h3 h4 h5
    hst hsec hmp hsig hord hpm hcexp hcrec hpend hts).1
  refine ⟨hfirst, hh2, ?_⟩
  have hnoop : ∀ t : Nat,
      notify cfg p t (handlePaymentSuccess p.outTradeNo p.tradeNo now s).2 =
        (successResp, (handlePaymentSuccess p.outTradeNo p.tradeNo now s).2) := by
    intro t
    exact notify_done_noop cfg p t _ secret
      { order with status := OrderStatus.completed, tradeNo := some p.tradeNo,
                   paidAt := some now, updatedAt := now } cents
      h1 h2 h3 h4 h5 hst hsec hmp hsig hh2 hpm hcexp hcrec (Or.inl rfl)
  intro times
  induction times with
  | nil => rfl
  | cons t ts ih =>
    simp only [notifyTimes, hnoop t, ih, List.map_cons]

set_option maxRecDepth 100000 in
/-- Witness for C2 at the concrete pending store and a twice-delivered valid
notification. -/
theorem webhook_idempotent_witness :
    notify exampleCfg validNotify 1500 pendingOrderState =
      (successResp, (handlePaymentSuccess "O1" "T1" 1500 pendingOrderState).2) :=
  (webhook_idempotent exampleCfg validNotify 1500 pendingOrderState "secret"
    { id := 1, orderNo := "O1", productId := some 7, productName := "P",
      quantity := 2, totalAmount := "10.00", paymentMethod := "ldc",
      status := OrderStatus.pending, tradeNo := none, userId := some "u",
      expiredAt := some 100000, paidAt := none, updatedAt := 10,
      adminRemark := none, refundReason := none, refundRequestedAt := none,
      refundedAt := none } 1000
    (by decide) (by decide) (by decide) (by decide) (by decide)
    (Or.inr (by decide)) rfl rfl (by decide) (by decide) rfl
    (by decide) (by decide) rfl rfl).1

/-! ## C6 — integer-cent amount reconciliation -/

/-- **C6.**  The webhook converts the order's stored `totalAmount` and the
notified `money` to integer minor units (`toCents`, rounding to nearest) and
rejects — body `"fail"`, HTTP 400, store untouched, order left as it was —
whenever either fails to parse or the two cent values differ; when the two
agree (order pending, `TRADE_SUCCESS`) it accepts and completes the
order. -/
theorem webhook_amount_reconciliation (cfg : NotifyConfig) (p : NotifyParams)
    (now : Nat) (s : State) (secret : String) (order : Order)
    (h1 : p.outTradeNo ≠ "") (h2 : p.sign ≠ "") (h3 : p.pid ≠ "")
    (h4 : p.tradeNo ≠ "") (h5 : p.money ≠ "")
    (hst : p.signType = "" ∨ jsUpper p.signType = "MD5")
    (hsec : cfg.secret = some secret)
    (hmp : cfg.merchantPid = some p.pid)
    (hsig : verifySign p secret = true)
    (hord : s.orders.find? (fun o => o.orderNo = p.outTradeNo) = some order)
    (hpm : order.paymentMethod = "ldc") :
    ((toCents order.totalAmount = none ∨ toCents p.money = none ∨
        toCents order.totalAmount ≠ toCents p.money) →
      notify cfg p now s = (failResp 400, s)) ∧
      (∀ cents : Int, toCents order.totalAmount = some cents →
        toCents p.money = some cents → order.status = OrderStatus.pending →
        p.tradeStatus = "TRADE_SUCCESS" →
        notify cfg p now s =
            (successResp, (handlePaymentSuccess p.outTradeNo p.tradeNo now s).2) ∧
          ((handlePaymentSuccess p.outTradeNo p.tradeNo now s).2).orders.find?
              (fun o => o.orderNo = p.outTradeNo) =
            some { order with status := OrderStatus.completed,
                              tradeNo := some p.tradeNo, paidAt := some now,
                              updatedAt := now }) := by
  constructor
  · intro hbad
    exact notify_cents_mismatch cfg p now s secret order h1 h2 h3 h4 h5 hst hsec hmp
      hsig hord hpm hbad
  · intro cents hcexp hcrec hpend hts
    refine ⟨(notify_pending_completes cfg p now s secret order cents h1 h2 h3 h4 h5
      hst hsec hmp hsig hord hpm hcexp hcrec hpend hts).1, ?_⟩
    exact (handlePaymentSuccess_state p.outTradeNo p.tradeNo now s order hord hpend).2

set_option maxRecDepth 100000 in
/-- Witness for C6, Scenario B: stored total `"10.00"`; notified `"10.00"`
is accepted and completes the order, notified `"10.01"` (with a valid
signature) is rejected with `"fail"` and the store untouched. -/
theorem webhook_amount_reconciliation_witness :
    notify exampleCfg wrongAmountNotify 1500 pendingOrderState =
        (failResp 400, pendingOrderState) ∧
      notify exampleCfg validNotify 1500 pendingOrderState =
        (successResp, (handlePaymentSuccess "O1" "T1" 1500 pendingOrderState).2) :=
  ⟨(webhook_amount_reconciliation exampleCfg wrongAmountNotify 1500 pendingOrderState
      "secret"
      { id := 1, orderNo := "O1", productId := some 7, productName := "P",
        quantity := 2, totalAmount := "10.00", paymentMethod := "ldc",
        status := OrderStatus.pending, tradeNo := none, userId := some "u",
        expiredAt := some 100000, paidAt := none, updatedAt := 10,
        adminRemark := none, refundReason := none, refundRequestedAt := none,
        refundedAt := none }
      (by decide) (by decide) (by decide) (by decide) (by decide)
      (Or.inr (by decide)) rfl rfl (by decide) (by decide) rfl).1
      (Or.inr (Or.inr (by decide))),
    ((webhook_amount_reconciliation exampleCfg validNotify 1500 pendingOrderState
      "secret"
      { id := 1, orderNo := "O1", productId := some 7, productName := "P",
        quantity := 2, totalAmount := "10.00", paymentMethod := "ldc",
        status := OrderStatus.pending, tradeNo := none, userId := some "u",
        expiredAt := some 100000, paidAt := none, updatedAt := 10,
        adminRemark := none, refundReason := none, refundRequestedAt := none,
        refundedAt := none }
      (by decide) (by decide) (by decide) (by decide) (by decide)
      (Or.inr (by decide)) rfl rfl (by decide) (by decide) rfl).2 1000
      (by decide) (by decide) rfl rfl).1⟩

/-! ## C7 — the signing algorithm, and its sort order -/

theorem lexCmpNat_swap : ∀ a b : List Nat, lexCmpNat a b = (lexCmpNat b a).swap
  | [], [] => rfl
  | [], _ :: _ => rfl
  | _ :: _, [] => rfl
  | a :: as, b :: bs => by
    simp only [lexCmpNat]
    rcases Nat.lt_trichotomy a b with h | h | h
    · rw [if_pos h, if_neg (Nat.lt_asymm h), if_pos h]
      rfl
    · subst h
      rw [if_neg (lt_irrefl a), if_neg (lt_irrefl a), if_neg (lt_irrefl a),
        if_neg (lt_irrefl a)]
      exact lexCmpNat_swap as bs
    · rw [if_neg (Nat.lt_asymm h), if_pos h, if_pos h]
      rfl

theorem localeCompare_swap (x y : String) :
    localeCompare y x = (localeCompare x y).swap := by
  unfold localeCompare
  rw [lexCmpNat_swap (y.data.map primaryWeight) (x.data.map primaryWeight)]
  cases lexCmpNat (x.data.map primaryWeight) (y.data.map primaryWeight) <;>
    simp [Ordering.swap, lexCmpNat_swap (y.data.map caseWeight) (x.data.map caseWeight)]

theorem keyLe_total (x y : String × String) (h : ¬keyLe x y) : keyLe y x := by
  unfold keyLe at h ⊢
  rw [localeCompare_swap]
  rcases hxy : localeCompare x.1 y.1 with _ | _ | _ <;>
    simp [hxy, Ordering.swap] at h ⊢

theorem insertPair_perm (x : String × String) (l : List (String × String)) :
    (insertPair x l).Perm (x :: l) := by
  induction l with
  | nil => exact List.Perm.refl _
  | cons y ys ih =>
    unfold insertPair
    split
    · exact List.Perm.refl _
    · exact (ih.cons y).trans (List.Perm.swap x y ys)

theorem sortPairs_perm (l : List (String × String)) : (sortPairs l).Perm l := by
  induction l with
  | nil => exact List.Perm.refl _
  | cons x xs ih => exact (insertPair_perm x (sortPairs xs)).trans (ih.cons x)

theorem insertPair_chain' (x : String × String) (l : List (String × String))
    (h : List.Chain' keyLe l) : List.Chain' keyLe (insertPair x l) := by
  induction l with
  | nil => simp [insertPair]
  | cons y ys ih =>
    unfold insertPair
    split
    · next hle =>
      exact List.chain'_cons.mpr ⟨hle, h⟩
    · next hgt =>
      have hyx : keyLe y x := keyLe_total x y hgt
      have hys : List.Chain' keyLe ys := (List.chain'_cons'.mp h).2
      have htail := ih hys
      cases ys with
      | nil => exact List.chain'_cons.mpr ⟨hyx, List.chain'_singleton x⟩
      | cons z zs =>
        have hins : insertPair x (z :: zs) =
            if localeCompare x.1 z.1 ≠ Ordering.gt then x :: z :: zs
            else z :: insertPair x zs := rfl
        by_cases hxz : localeCompare x.1 z.1 ≠ Ordering.gt
        · rw [hins, if_pos hxz] at htail ⊢
          exact List.chain'_cons.mpr ⟨hyx, htail⟩
        · rw [hins, if_neg hxz] at htail ⊢
          exact List.chain'_cons.mpr ⟨(List.chain'_cons.mp h).1, htail⟩

theorem sortPairs_chain' (l : List (String × String)) :
    List.Chain' keyLe (sortPairs l) := by
  induction l with
  | nil => exact List.chain'_nil
  | cons x xs ih => exact insertPair_chain' x (sortPairs xs) ih

/-- **C7, amended.**  `generateSign` takes exactly the parameters other than
`sign`/`sign_type` whose value is non-empty (`sigEntries`), sorts them by
*locale-aware* `localeCompare` key order — which coincides with byte/ASCII
order on the protocol's all-lowercase keys but not in general — joins them
as `key=value` with `&` and no URL-encoding, appends the secret with no
separator, and returns the lowercase hex MD5 of that string: the sorted
list is a permutation of the filtered entries whose adjacent keys ascend in
`localeCompare` order, and the signature is the MD5 of the joined string. -/
theorem generateSign_characterization (params : List (String × Option String))
    (secret : String) :
    generateSign params secret =
        md5Hex (joinAmp ((sortPairs (sigEntries params)).map seg) ++ secret) ∧
      (sortPairs (sigEntries params)).Perm (sigEntries params) ∧
      List.Chain' keyLe (sortPairs (sigEntries params)) :=
  ⟨rfl, sortPairs_perm _, sortPairs_chain' _⟩

set_option maxRecDepth 100000 in
/-- **C7, counterexample.**  On the parameter map `{a: "2", B: "1"}` the
code's `localeCompare` sort yields the preimage `"a=2&B=1k"` whereas the
byte/ASCII sort of the claim yields `"B=1&a=2k"`, and the two signatures
differ — `generateSign` does *not* sort keys in ascending byte/ASCII
order. -/
theorem generateSign_not_byte_order :
    generateSignString [("a", some "2"), ("B", some "1")] "k" = "a=2&B=1k" ∧
      specSignString [("a", some "2"), ("B", some "1")] "k" = "B=1&a=2k" ∧
      generateSign [("a", some "2"), ("B", some "1")] "k" ≠
        specSign [("a", some "2"), ("B", some "1")] "k" := by
  refine ⟨by decide, by decide, by decide⟩

/-! ## C8 — signature round-trip and tamper evidence -/

theorem strExt (a b : String) (h : a.data = b.data) : a = b := by
  cases a
  cases b
  exact congrArg String.mk (by simpa using h)

theorem diffCount_self (v : String) : diffCount v v = 0 := by
  unfold diffCount
  induction v.data with
  | nil => rfl
  | cons c cs ih => simpa using ih

theorem mutated1_ne {v v' : String} (h : mutated1 v v') : v ≠ v' := by
  intro heq
  subst heq
  have := h.2
  rw [diffCount_self] at this
  exact absurd this (by decide)

theorem mutated1_ne_empty {v v' : String} (h : mutated1 v v') :
    v ≠ "" ∧ v' ≠ "" := by
  constructor
  · intro hv
    subst hv
    have h2 : diffCount "" v' = 1 := h.2
    have h0 : diffCount "" v' = 0 := rfl
    rw [h0] at h2
    exact absurd h2 (by decide)
  · intro hv
    subst hv
    have hlen : v.data.length = 0 := by simpa using h.1
    have h2 : diffCount v "" = 1 := h.2
    have h0 : diffCount v "" = 0 := by
      unfold diffCount
      rw [List.length_eq_zero.mp hlen]
      rfl
    rw [h0] at h2
    exact absurd h2 (by decide)

theorem pairsMutated1_ne : ∀ {l l' : List (String × String)},
    pairsMutated1 l l' → l ≠ l'
  | [], [], h => absurd h (by simp [pairsMutated1])
  | a :: l, b :: l', h => by
    rcases h with ⟨_, hmut, _⟩ | ⟨hab, hrec⟩
    · intro heq
      injection heq with h1 h2
      exact mutated1_ne hmut (by rw [h1])
    · intro heq
      injection heq with h1 h2
      exact pairsMutated1_ne hrec h2

theorem pairsAligned_refl (l : List (String × String)) : pairsAligned l l :=
  List.forall₂_same.mpr fun _ _ => ⟨rfl, rfl⟩

theorem pairsMutated1_aligned : ∀ {l l' : List (String × String)},
    pairsMutated1 l l' → pairsAligned l l'
  | [], [], h => absurd h (by simp [pairsMutated1])
  | a :: l, b :: l', h => by
    rcases h with ⟨hk, hmut, rfl⟩ | ⟨rfl, hrec⟩
    · exact List.Forall₂.cons ⟨hk, hmut.1⟩ (pairsAligned_refl l)
    · exact List.Forall₂.cons ⟨rfl, rfl⟩ (pairsMutated1_aligned hrec)

theorem aligned_empty_iff {a b : String × String}
    (h : a.2.data.length = b.2.data.length) : a.2 = "" ↔ b.2 = "" := by
  constructor <;> intro he
  · refine strExt _ _ ?_
    rw [he] at h
    simpa using (List.length_eq_zero.mp (by simpa using h.symm))
  · refine strExt _ _ ?_
    rw [he] at h
    simpa using (List.length_eq_zero.mp (by simpa using h))

theorem pairsAligned_filter {l l' : List (String × String)}
    (h : pairsAligned l l') :
    pairsAligned (l.filter fun kv => kv.2 ≠ "") (l'.filter fun kv => kv.2 ≠ "") := by
  induction h with
  | nil => exact List.Forall₂.nil
  | cons hab h ih =>
    rename_i a b l l'
    by_cases he : a.2 = ""
    · have he' : b.2 = "" := (aligned_empty_iff hab.2).mp he
      rw [List.filter_cons_of_neg (by simp [he]), List.filter_cons_of_neg (by simp [he'])]
      exact ih
    · have he' : b.2 ≠ "" := fun hb => he ((aligned_empty_iff hab.2).mpr hb)
      rw [List.filter_cons_of_pos (by simp [he]), List.filter_cons_of_pos (by simp [he'])]
      exact List.Forall₂.cons hab ih

theorem pairsMutated1_filter : ∀ {l l' : List (String × String)},
    pairsMutated1 l l' →
    pairsMutated1 (l.filter fun kv => kv.2 ≠ "") (l'.filter fun kv => kv.2 ≠ "")
  | [], [], h => absurd h (by simp [pairsMutated1])
  | a :: l, b :: l', h => by
    rcases h with ⟨hk, hmut, rfl⟩ | ⟨rfl, hrec⟩
    · obtain ⟨hea, heb⟩ := mutated1_ne_empty hmut
      rw [List.filter_cons_of_pos (by simp [hea]), List.filter_cons_of_pos (by simp [heb])]
      exact Or.inl ⟨hk, hmut, rfl⟩
    · by_cases he : a.2 = ""
      · rw [List.filter_cons_of_neg (by simp [he]), List.filter_cons_of_neg (by simp [he])]
        exact pairsMutated1_filter hrec
      · rw [List.filter_cons_of_pos (by simp [he]), List.filter_cons_of_pos (by simp [he])]
        exact Or.inr ⟨rfl, pairsMutated1_filter hrec⟩

theorem pairsAligned_insertPair {x x' : String × String} (hk : x.1 = x'.1)
    (hv : x.2.data.length = x'.2.data.length) :
    ∀ {l l' : List (String × String)}, pairsAligned l l' →
      pairsAligned (insertPair x l) (insertPair x' l') := by
  intro l l' h
  induction h with
  | nil => exact List.Forall₂.cons ⟨hk, hv⟩ List.Forall₂.nil
  | cons hab h ih =>
    rename_i a b L L'
    have e1 : insertPair x (a :: L) =
        if localeCompare x.1 a.1 ≠ Ordering.gt then x :: a :: L
        else a :: insertPair x L := rfl
    have e2 : insertPair x' (b :: L') =
        if localeCompare x'.1 b.1 ≠ Ordering.gt then x' :: b :: L'
        else b :: insertPair x' L' := rfl
    by_cases hc : localeCompare x'.1 b.1 ≠ Ordering.gt
    · rw [e1, if_pos (by rw [hk, hab.1]; exact hc), e2, if_pos hc]
      exact List.Forall₂.cons ⟨hk, hv⟩ (List.Forall₂.cons hab h)
    · rw [e1, if_neg (by rw [hk, hab.1]; exact hc), e2, if_neg hc]
      exact List.Forall₂.cons hab ih

theorem pairsAligned_sortPairs : ∀ {l l' : List (String × String)},
    pairsAligned l l' → pairsAligned (sortPairs l) (sortPairs l')
  | [], [], _ => List.Forall₂.nil
  | a :: l, b :: l', h => by
    rcases h with _ | ⟨hab, htail⟩
    exact pairsAligned_insertPair hab.1 hab.2 (pairsAligned_sortPairs htail)

theorem insertPair_inj_aligned {x x' : String × String} (hk : x.1 = x'.1) :
    ∀ {l l' : List (String × String)}, pairsAligned l l' →
      insertPair x l = insertPair x' l' → x = x' ∧ l = l' := by
  intro l l' h
  induction h with
  | nil =>
    intro he
    simp only [insertPair] at he
    exact ⟨(List.cons.injEq _ _ _ _ ▸ he).1, rfl⟩
  | cons hab h ih =>
    rename_i a b L L'
    intro he
    have e1 : insertPair x (a :: L) =
        if localeCompare x.1 a.1 ≠ Ordering.gt then x :: a :: L
        else a :: insertPair x L := rfl
    have e2 : insertPair x' (b :: L') =
        if localeCompare x'.1 b.1 ≠ Ordering.gt then x' :: b :: L'
        else b :: insertPair x' L' := rfl
    by_cases hc : localeCompare x'.1 b.1 ≠ Ordering.gt
    · rw [e1, if_pos (by rw [hk, hab.1]; exact hc), e2, if_pos hc] at he
      injection he with he1 he2
      exact ⟨he1, he2⟩
    · rw [e1, if_neg (by rw [hk, hab.1]; exact hc), e2, if_neg hc] at he
      injection he with he1 he2
      obtain ⟨hx, hL⟩ := ih he2
      rw [he1, hx, hL]
      exact ⟨rfl, rfl⟩

theorem sortPairs_inj_aligned : ∀ {l l' : List (String × String)},
    pairsAligned l l' → sortPairs l = sortPairs l' → l = l'
  | [], [], _, _ => rfl
  | a :: l, b :: l', h, he => by
    rcases h with _ | ⟨hab, htail⟩
    obtain ⟨hx, hs⟩ := insertPair_inj_aligned hab.1 (pairsAligned_sortPairs htail) he
    rw [hx, sortPairs_inj_aligned htail hs]

theorem seg_data (kv : String × String) :
    (seg kv).data = kv.1.data ++ '=' :: kv.2.data := by
  unfold seg
  rw [String.data_append, String.data_append,
    show ("=" : String).data = ['='] from rfl, List.append_assoc]
  rfl

theorem seg_data_length {a b : String × String} (hk : a.1 = b.1)
    (hv : a.2.data.length = b.2.data.length) :
    (seg a).data.length = (seg b).data.length := by
  rw [seg_data, seg_data, hk]
  simp [hv]

theorem seg_inj_of_key {a b : String × String} (hk : a.1 = b.1)
    (hd : (seg a).data = (seg b).data) : a = b := by
  rw [seg_data, seg_data] at hd
  have hlen : a.1.data.length = b.1.data.length := by rw [hk]
  obtain ⟨_, h2⟩ := List.append_inj hd hlen
  injection h2 with _ h3
  exact Prod.ext_iff.mpr ⟨hk, strExt _ _ h3⟩

theorem joinSeg_inj_aligned : ∀ {l l' : List (String × String)},
    pairsAligned l l' → joinAmp (l.map seg) = joinAmp (l'.map seg) → l = l'
  | [], [], _, _ => rfl
  | a :: l, b :: l', h, he => by
    rcases h with _ | ⟨hab, htail⟩
    cases l with
    | nil =>
      cases htail
      have : seg a = seg b := he
      rw [seg_inj_of_key hab.1 (congrArg String.data this)]
    | cons c L =>
      cases l' with
      | nil => exact absurd htail (by intro hf; cases hf)
      | cons d L' =>
        have e1 : joinAmp ((a :: c :: L).map seg) =
            seg a ++ "&" ++ joinAmp ((c :: L).map seg) := rfl
        have e2 : joinAmp ((b :: d :: L').map seg) =
            seg b ++ "&" ++ joinAmp ((d :: L').map seg) := rfl
        rw [e1, e2] at he
        have hd := congrArg String.data he
        rw [String.data_append, String.data_append, String.data_append,
          String.data_append, show ("&" : String).data = ['&'] from rfl,
          List.append_assoc, List.append_assoc] at hd
        obtain ⟨hsa, hrest⟩ := List.append_inj hd (seg_data_length hab.1 hab.2)
        injection hrest with _ hjoin
        have hj : joinAmp ((c :: L).map seg) = joinAmp ((d :: L').map seg) :=
          strExt _ _ hjoin
        rw [seg_inj_of_key hab.1 hsa, joinSeg_inj_aligned htail hj]

theorem append_right_cancel_str (a b c : String) (h : a ++ c = b ++ c) : a = b := by
  have hd := congrArg String.data h
  rw [String.data_append, String.data_append] at hd
  exact strExt _ _ (List.append_cancel_right hd)

theorem sigEntries_notifyEntries (p : NotifyParams) :
    sigEntries (notifyEntries p) = (notifyRest p).filter fun kv => kv.2 ≠ "" := by
  simp only [sigEntries, notifyEntries, notifyRest, List.filterMap_cons, List.filter_cons]
  by_cases h1 : p.pid = "" <;> by_cases h2 : p.tradeNo = "" <;>
    by_cases h3 : p.outTradeNo = "" <;> by_cases h4 : p.payType = "" <;>
    by_cases h5 : p.name = "" <;> by_cases h6 : p.money = "" <;>
    by_cases h7 : p.tradeStatus = "" <;>
    simp [h1, h2, h3, h4, h5, h6, h7]

theorem generateSignString_notifyEntries (p : NotifyParams) (secret : String) :
    generateSignString (notifyEntries p) secret = verifySignString p secret := by
  unfold generateSignString verifySignString
  rw [sigEntries_notifyEntries]

set_option maxHeartbeats 1600000 in
/-- **C8.**  Signature round-trip and tamper evidence: signing a
notification's parameter set with `generateSign` and re-verifying with the
same secret succeeds; and for any notification `p'` obtained by changing a
single character of a single signed value (`pairsMutated1`) while carrying
the original signature, the recomputed signing string necessarily differs,
so — the two MD5 digests differing (no collision on this pair) —
verification fails. -/
theorem signature_round_trip_tamper (p p' : NotifyParams) (secret : String)
    (hmut : pairsMutated1 (notifyRest p) (notifyRest p'))
    (hsign : p'.sign = generateSign (notifyEntries p) secret)
    (hnocoll : md5Hex (verifySignString p' secret) ≠ md5Hex (verifySignString p secret)) :
    verifySign (withSign p secret) secret = true ∧
      verifySignString p' secret ≠ verifySignString p secret ∧
      verifySign p' secret = false := by
  have hgen : generateSignString (notifyEntries p) secret = verifySignString p secret :=
    generateSignString_notifyEntries p secret
  refine ⟨?_, ?_, ?_⟩
  · have e : verifySign (withSign p secret) secret =
        ((withSign p secret).sign ==
          md5Hex (verifySignString (withSign p secret) secret)) := rfl
    have es : (withSign p secret).sign =
        md5Hex (generateSignString (notifyEntries p) secret) := rfl
    have hrest : notifyRest (withSign p secret) = notifyRest p := rfl
    have ev : verifySignString (withSign p secret) secret =
        verifySignString p secret := by
      unfold verifySignString
      rw [hrest]
    rw [e, es, ev, hgen]
    exact beq_self_eq_true _
  · intro he
    have e1 : verifySignString p' secret =
        joinAmp ((sortPairs ((notifyRest p').filter fun kv => kv.2 ≠ "")).map seg) ++
          secret := rfl
    have e2 : verifySignString p secret =
        joinAmp ((sortPairs ((notifyRest p).filter fun kv => kv.2 ≠ "")).map seg) ++
          secret := rfl
    rw [e1, e2] at he
    have hjoin := append_right_cancel_str _ _ _ he
    have hal := pairsAligned_sortPairs (pairsAligned_filter (pairsMutated1_aligned hmut))
    have hfil := sortPairs_inj_aligned (pairsAligned_filter (pairsMutated1_aligned hmut))
      (joinSeg_inj_aligned hal hjoin.symm)
    exact pairsMutated1_ne (pairsMutated1_filter hmut) hfil
  · have e : verifySign p' secret =
        (p'.sign == md5Hex (verifySignString p' secret)) := rfl
    have es : generateSign (notifyEntries p) secret =
        md5Hex (generateSignString (notifyEntries p) secret) := rfl
    rw [e, hsign, es, hgen]
    exact beq_eq_false_iff_ne.mpr fun hcoll => hnocoll (hcoll.symm)

set_option maxRecDepth 200000 in
/-- Witness for C8: the valid example notification round-trips, and flipping
the last character of `money` (`"10.00"` → `"10.01"`) while keeping the
original signature makes verification fail. -/
theorem signature_round_trip_tamper_witness :
    verifySign (withSign validNotify "secret") "secret" = true ∧
      verifySign tamperedNotify "secret" = false := by
  have t := signature_round_trip_tamper validNotify tamperedNotify "secret"
    (Or.inr ⟨rfl, Or.inr ⟨rfl, Or.inr ⟨rfl, Or.inr ⟨rfl, Or.inr ⟨rfl,
      Or.inl ⟨rfl, by decide, rfl⟩⟩⟩⟩⟩⟩)
    rfl (by decide)
  exact ⟨t.1, t.2.2⟩

/-! ## C1 — no overselling, no double sale -/

theorem forall₂_map_self {α : Type} {R : α → α → Prop} {f : α → α}
    (h : ∀ a, R a (f a)) : ∀ l : List α, List.Forall₂ R l (l.map f)
  | [] => List.Forall₂.nil
  | a :: l => List.Forall₂.cons (h a) (forall₂_map_self h l)

theorem forall₂_mem_right {α β : Type} {R : α → β → Prop} :
    ∀ {l : List α} {l' : List β}, List.Forall₂ R l l' → ∀ b ∈ l', ∃ a ∈ l, R a b := by
  intro l l' h
  induction h with
  | nil => intro b hb; simp at hb
  | cons hab _ ih =>
    intro b hb
    rcases List.mem_cons.mp hb with rfl | hb
    · exact ⟨_, List.mem_cons_self _ _, hab⟩
    · obtain ⟨a, ha, hr⟩ := ih b hb
      exact ⟨a, List.mem_cons_of_mem _ ha, hr⟩

theorem cardEvoFun_id : cardEvoFun id := fun _ => ⟨rfl, rfl, fun _ _ => rfl⟩

theorem cardEvoFun_comp {f g : Card → Card} (hf : cardEvoFun f)
    (hfs : ∀ c, c.status = CardStatus.sold → f c = c) (hg : cardEvoFun g) :
    cardEvoFun fun c => g (f c) := by
  intro c
  show CardEvo c (g (f c))
  by_cases hs : c.status = CardStatus.sold
  · rw [hfs c hs]
    exact hg c
  · exact ⟨((hg (f c)).1).trans (hf c).1, ((hg (f c)).2.1).trans (hf c).2.1,
      fun h _ => absurd h hs⟩

theorem release_cards_map (now : Nat) (s : State) :
    ∃ f : Card → Card, ((releaseExpiredOrders now s).2.cards = s.cards.map f) ∧
      cardEvoFun f ∧ ∀ c, c.status = CardStatus.sold → f c = c := by
  simp only [releaseExpiredOrders]
  split
  · exact ⟨id, by simp, cardEvoFun_id, fun _ _ => rfl⟩
  · refine ⟨releaseCard (sweptIds now s), rfl, ?_, ?_⟩
    · intro c
      simp only [CardEvo, releaseCard]
      split_ifs <;> simp_all
    · intro c hs
      unfold releaseCard
      rw [if_neg (by simp [hs])]

theorem tx_cards_map (productId quantity : Nat) (pm orderNo : String)
    (newOrderId : Nat) (userId : Option String) (priceCents now expiredAt : Nat)
    (productName : String) (s : State) :
    ∃ f : Card → Card,
      ((createOrderTx productId quantity pm orderNo newOrderId userId priceCents
          now expiredAt productName s).2.cards = s.cards.map f) ∧ cardEvoFun f := by
  simp only [createOrderTx]
  split
  · exact ⟨id, by simp, cardEvoFun_id⟩
  · refine ⟨_, rfl, ?_⟩
    intro c
    simp only [CardEvo]
    split_ifs <;> simp_all

theorem createOrder_cards_map (productId quantity : Nat) (pm orderNo : String)
    (newOrderId : Nat) (userId : Option String) (now expiredAt : Nat) (s : State) :
    ∃ f : Card → Card,
      ((createOrder productId quantity pm orderNo newOrderId userId now expiredAt
          s).2.cards = s.cards.map f) ∧ cardEvoFun f := by
  obtain ⟨f, hf, hevo, hsold⟩ := release_cards_map now s
  simp only [createOrder]
  split
  · exact ⟨f, hf, hevo⟩
  · split
    · exact ⟨f, hf, hevo⟩
    · obtain ⟨g, hg, hgevo⟩ := tx_cards_map productId quantity pm orderNo newOrderId
        userId _ now expiredAt _ (releaseExpiredOrders now s).2
      refine ⟨fun c => g (f c), ?_, cardEvoFun_comp hevo hsold hgevo⟩
      rw [hg, hf, List.map_map]
      rfl

theorem handle_cards_map (orderNo tradeNo : String) (now : Nat) (s : State) :
    ∃ f : Card → Card,
      ((handlePaymentSuccess orderNo tradeNo now s).2.cards = s.cards.map f) ∧
        cardEvoFun f := by
  simp only [handlePaymentSuccess]
  split
  · exact ⟨id, by simp, cardEvoFun_id⟩
  · next order _ =>
    have hevo : cardEvoFun fun c =>
        if c.orderId = some order.id then
          { c with status := CardStatus.sold, soldAt := some now }
        else c := by
      intro c
      simp only [CardEvo]
      split_ifs <;> simp_all
    cases order.productId <;> exact ⟨_, rfl, hevo⟩

theorem admin_cards_map (orderId : Nat) (remark : Option String) (now : Nat)
    (s : State) :
    ∃ f : Card → Card,
      ((adminCompleteOrder orderId remark now s).2.cards = s.cards.map f) ∧
        cardEvoFun f := by
  simp only [adminCompleteOrder]
  split
  · exact ⟨id, by simp, cardEvoFun_id⟩
  · next order _ =>
    have hevo : cardEvoFun fun c =>
        if c.orderId = some orderId then
          { c with status := CardStatus.sold, soldAt := some now }
        else c := by
      intro c
      simp only [CardEvo]
      split_ifs <;> simp_all
    cases order.productId <;> exact ⟨_, rfl, hevo⟩

theorem cards_self_map (l : List Card) :
    ∃ f : Card → Card, (l = l.map f) ∧ cardEvoFun f :=
  ⟨id, (List.map_id l).symm, cardEvoFun_id⟩

theorem approve_cards_map (orderId : Nat) (remark : Option String)
    (enabled : Bool) (gw : GatewayResult) (now : Nat) (s : State) :
    ∃ f : Card → Card,
      ((approveRefund orderId remark enabled gw now s).2.cards = s.cards.map f) ∧
        cardEvoFun f := by
  have hevo : cardEvoFun fun c =>
      if c.orderId = some orderId then
        { c with status := CardStatus.available, orderId := none, soldAt := none }
      else c := by
    intro c
    simp only [CardEvo]
    split_ifs <;> simp_all
  simp only [approveRefund]
  repeat' first | exact cards_self_map s.cards | exact ⟨_, rfl, hevo⟩ | split

theorem mark_cards_map (orderId : Nat) (remark : Option String) (now : Nat)
    (s : State) :
    ∃ f : Card → Card,
      ((markOrderRefunded orderId remark now s).2.cards = s.cards.map f) ∧
        cardEvoFun f := by
  have hevo : cardEvoFun fun c =>
      if c.orderId = some orderId then
        { c with status := CardStatus.available, orderId := none, soldAt := none }
      else c := by
    intro c
    simp only [CardEvo]
    split_ifs <;> simp_all
  simp only [markOrderRefunded]
  repeat' first | exact cards_self_map s.cards | exact ⟨_, rfl, hevo⟩ | split

theorem reqRefund_cards (orderNo userId reason : String) (enabled : Bool)
    (now : Nat) (s : State) :
    (requestRefund orderNo userId reason enabled now s).2.cards = s.cards := by
  simp only [requestRefund]
  repeat' first | rfl | split

theorem reject_cards (orderId : Nat) (remark : Option String) (now : Nat)
    (s : State) :
    (rejectRefund orderId remark now s).2.cards = s.cards := by
  simp only [rejectRefund]
  repeat' first | rfl | split

theorem notifyFulfill_cards_map (p : NotifyParams) (now : Nat) (s : State) :
    ∃ f : Card → Card, ((notifyFulfill p now s).2.cards = s.cards.map f) ∧
      cardEvoFun f := by
  obtain ⟨g, hg, hgevo⟩ := handle_cards_map p.outTradeNo p.tradeNo now s
  simp only [notifyFulfill]
  repeat' first | exact ⟨g, hg, hgevo⟩ | split

theorem notify_cards_map (cfg : NotifyConfig) (p : NotifyParams) (now : Nat)
    (s : State) :
    ∃ f : Card → Card, ((notify cfg p now s).2.cards = s.cards.map f) ∧
      cardEvoFun f := by
  simp only [notify]
  repeat' first | exact cards_self_map s.cards |
    exact notifyFulfill_cards_map p now s | split

/-- Every atomic transaction rewrites the card table pointwise: each card
keeps its identity and product, and a card `sold` before and after the step
keeps its owning order. -/
theorem step_cards_map (s : State) (op : Op) :
    ∃ f : Card → Card, ((step s op).cards = s.cards.map f) ∧ cardEvoFun f := by
  cases op with
  | reserve productId quantity pm orderNo newOrderId userId now expiredAt =>
    exact createOrder_cards_map productId quantity pm orderNo newOrderId userId
      now expiredAt s
  | notifyOp cfg p now => exact notify_cards_map cfg p now s
  | sweep now =>
    obtain ⟨f, hf, hevo, _⟩ := release_cards_map now s
    exact ⟨f, hf, hevo⟩
  | adminComplete orderId remark now => exact admin_cards_map orderId remark now s
  | reqRefund orderNo userId reason enabled now =>
    exact ⟨id, by simp [step, reqRefund_cards], cardEvoFun_id⟩
  | approve orderId remark enabled gw now =>
    exact approve_cards_map orderId remark enabled gw now s
  | reject orderId remark now =>
    exact ⟨id, by simp [step, reject_cards], cardEvoFun_id⟩
  | markRefunded orderId remark now => exact mark_cards_map orderId remark now s

theorem step_cards_evo (s : State) (op : Op) :
    List.Forall₂ CardEvo s.cards ((step s op).cards) := by
  obtain ⟨f, hmap, hevo⟩ := step_cards_map s op
  rw [hmap]
  exact forall₂_map_self hevo s.cards

theorem forall₂_cardSame_trans : ∀ {l1 l2 l3 : List Card},
    List.Forall₂ CardSame l1 l2 → List.Forall₂ CardSame l2 l3 →
      List.Forall₂ CardSame l1 l3 := by
  intro l1 l2 l3 h12
  induction h12 generalizing l3 with
  | nil => intro h; exact h
  | cons hab h ih =>
    intro h23
    rcases h23 with _ | ⟨hbc, h'⟩
    exact List.Forall₂.cons ⟨hbc.1.trans hab.1, hbc.2.trans hab.2⟩ (ih h')

theorem step_cards_same (s : State) (op : Op) :
    List.Forall₂ CardSame s.cards ((step s op).cards) := by
  obtain ⟨f, hmap, hevo⟩ := step_cards_map s op
  rw [hmap]
  exact forall₂_map_self (fun c => ⟨(hevo c).1, (hevo c).2.1⟩) s.cards

theorem trace_cards_same : ∀ (ops : List Op) (s : State),
    ∀ t ∈ traceStates s ops, List.Forall₂ CardSame s.cards t.cards := by
  intro ops
  induction ops with
  | nil =>
    intro s t ht
    simp only [traceStates, List.mem_singleton] at ht
    subst ht
    exact List.forall₂_same.mpr fun _ _ => ⟨rfl, rfl⟩
  | cons op ops ih =>
    intro s t ht
    rcases List.mem_cons.mp ht with rfl | ht
    · exact List.forall₂_same.mpr fun _ _ => ⟨rfl, rfl⟩
    · exact forall₂_cardSame_trans (step_cards_same s op) (ih (step s op) t ht)

theorem countP_congr_mem {α : Type} (p q : α → Bool) :
    ∀ l : List α, (∀ a ∈ l, p a = q a) → l.countP p = l.countP q
  | [], _ => rfl
  | a :: l, h => by
    rw [List.countP_cons, List.countP_cons, h a (by simp),
      countP_congr_mem p q l fun b hb => h b (by simp [hb])]

theorem countP_eq_of_forall₂ {p : Card → Bool}
    (hp : ∀ c c' : Card, CardSame c c' → p c' = p c) :
    ∀ {l l' : List Card}, List.Forall₂ CardSame l l' → l.countP p = l'.countP p := by
  intro l l' h
  induction h with
  | nil => rfl
  | cons hab _ ih => rw [List.countP_cons, List.countP_cons, ih, hp _ _ hab]

/-- **C1.**  For a product with `K` available cards (and no other cards),
under any sequence of the system's transactions — reservations
(`createOrder`), webhook deliveries, sweeps, admin completes, refund
operations — interleaved arbitrarily: (a) at every point of the run at most
`K` of the product's cards are `locked` or `sold`; (b) the set of the
product's cards that *ever* reach `locked`/`sold` over the whole run has at
most `K` elements; and (c) no card is ever sold to two buyers: across every
single step, a card that is `sold` before and after keeps its owning
order (`CardEvo`) — a sold card's owner can only change by first being
refunded back to `available`. -/
theorem no_overselling (pid K : Nat) (s0 : State) (ops : List Op)
    (hall : ∀ c ∈ s0.cards, c.productId = pid → c.status = CardStatus.available)
    (hK : (s0.cards.filter fun c =>
        c.productId = pid ∧ c.status = CardStatus.available).length = K) :
    (∀ t ∈ traceStates s0 ops,
      (t.cards.filter fun c => c.productId = pid ∧
        (c.status = CardStatus.locked ∨ c.status = CardStatus.sold)).length ≤ K) ∧
      (everLockedSold pid s0 ops).card ≤ K ∧
      ∀ s op, List.Forall₂ CardEvo s.cards ((step s op).cards) := by
  have hKpid : (s0.cards.countP fun c => decide (c.productId = pid)) = K := by
    rw [countP_congr_mem _ (fun c =>
      decide (c.productId = pid ∧ c.status = CardStatus.available)) s0.cards
      (fun c hc => by
        by_cases hp : c.productId = pid
        · simp [hp, hall c hc hp]
        · simp [hp])]
    rw [← hK, List.countP_eq_length_filter]
  have hcount : ∀ t ∈ traceStates s0 ops,
      (t.cards.filter fun c => c.productId = pid ∧
        (c.status = CardStatus.locked ∨ c.status = CardStatus.sold)).length ≤ K := by
    intro t ht
    have hsame := trace_cards_same ops s0 t ht
    rw [← List.countP_eq_length_filter]
    calc (t.cards.countP fun c => decide (c.productId = pid ∧
            (c.status = CardStatus.locked ∨ c.status = CardStatus.sold)))
        ≤ t.cards.countP fun c => decide (c.productId = pid) := by
          refine List.countP_mono_left fun c _ h => ?_
          simp only [decide_eq_true_eq] at h ⊢
          exact h.1
      _ = s0.cards.countP fun c => decide (c.productId = pid) := by
          refine (countP_eq_of_forall₂ (fun c c' hcc => ?_) hsame).symm
          simp [hcc.2]
      _ = K := hKpid
  refine ⟨hcount, ?_, step_cards_evo⟩
  have hsub : everLockedSold pid s0 ops ⊆
      ((s0.cards.filter fun c => c.productId = pid).map Card.id).toFinset := by
    intro x hx
    rw [everLockedSold, List.mem_toFinset] at hx
    obtain ⟨t, ht, hxt⟩ := List.mem_flatMap.mp hx
    rw [lockedSoldIds] at hxt
    obtain ⟨c', hc', rfl⟩ := List.mem_map.mp hxt
    obtain ⟨hc'mem, hc'prop⟩ := List.mem_filter.mp hc'
    obtain ⟨c, hcmem, hcc⟩ := forall₂_mem_right (trace_cards_same ops s0 t ht) c' hc'mem
    rw [List.mem_toFinset, hcc.1]
    refine List.mem_map.mpr ⟨c, List.mem_filter.mpr ⟨hcmem, ?_⟩, rfl⟩
    have : c'.productId = pid := by
      simpa using (decide_eq_true_eq.mp hc'prop).1
    simp [← hcc.2, this]
  calc (everLockedSold pid s0 ops).card
      ≤ ((s0.cards.filter fun c => c.productId = pid).map Card.id).toFinset.card :=
        Finset.card_le_card hsub
    _ ≤ ((s0.cards.filter fun c => c.productId = pid).map Card.id).length :=
        (s0.cards.filter fun c => c.productId = pid).map Card.id |>.toFinset_card_le
    _ = (s0.cards.filter fun c => c.productId = pid).length := List.length_map _ _
    _ = K := by
        rw [← List.countP_eq_length_filter, hKpid]

/-- Witness for C1: the one-available-card store, a reservation that locks
the card followed by a sweep — at most one card is ever locked/sold. -/
theorem no_overselling_witness :
    (everLockedSold 7 expiredOrderState
      [Op.reserve 7 1 "ldc" "O9" 100 (some "u") 1000 2000, Op.sweep 5000]).card ≤ 1 :=
  (no_overselling 7 1 expiredOrderState
    [Op.reserve 7 1 "ldc" "O9" 100 (some "u") 1000 2000, Op.sweep 5000]
    (by decide) (by decide)).2.1

end LdcStore
